import Mathlib

/-!
# Verification of the dungeon-crawler server game logic

A shallow embedding of the authoritative game engine of the
`dungeon-crawler` repository:

* `packages/shared/src/index.ts` — data model, character / enemy stat
  tables, equipment catalog, XP formula;
* `apps/api/src/services/mapGenerator.ts` — procedural floor generation;
* `apps/api/src/services/gameLogic.ts` — turn engine, combat,
  enemy AI, visibility, and the delta engine.

Modelling conventions:

* JS numbers that only ever hold non-negative integers (`xp`, `level`,
  `xpToNextLevel`, `score`, `floor`) are `Nat`; quantities that the code
  can drive negative or subtract from (coordinates during bounds checks,
  `hp`, `maxHp`, `attack`, `defense`, bonuses) are `Int`.
* `Math.random()` is modelled as a stream `Rng : Nat → Nat` of draws,
  one per call, consumed in program order; `randomInt` maps a draw into
  `[min, max]` by remainder, and the two fractional-threshold rolls
  (`getEnemyVariant`, `getEnemyBehavior`) read the draw modulo 1000 as
  thousandths of `[0,1)`.  All multiplier and threshold arithmetic that
  the source performs on floats is exact on the actual stat tables, so
  it is carried out on integers/rationals scaled by the denominators.
* `randomUUID` / `Date.now`-based identifiers are opaque to every game
  rule; generated entities get counter-derived string ids instead, and
  the `id` / `message` fields of events (presentation only) are omitted.
  The `_id`, `playerId`, `createdAt`, `updatedAt` bookkeeping fields of
  `GameState`, which no game rule reads, are omitted as well.
* A JS crash (the only one reachable: `generateMap` indexing an empty
  room array) is modelled by `Option`, `none` meaning the exception.
-/

namespace DungeonCrawler

/-! ## Shared data model (`packages/shared/src/index.ts`) -/

structure Coordinate where
  x : Int
  y : Int
deriving DecidableEq, Repr

inductive CharacterType
  | dwarf | elf | bandit | wizard
deriving DecidableEq, Repr

structure CharacterStats where
  hp : Int
  maxHp : Int
  attack : Int
  defense : Int
  rangedDamage : Int
  rangedRange : Int
deriving DecidableEq, Repr

def CHARACTER_STATS : CharacterType → CharacterStats
  | .dwarf => ⟨28, 28, 6, 3, 3, 2⟩
  | .bandit => ⟨24, 24, 4, 4, 6, 3⟩
  | .elf => ⟨22, 22, 5, 3, 6, 3⟩
  | .wizard => ⟨20, 20, 4, 2, 7, 4⟩

inductive FacingDirection
  | left | right
deriving DecidableEq, Repr

inductive TileType
  | floor | wall | stairs | door
deriving DecidableEq, Repr

structure Tile where
  type : TileType
  x : Int
  y : Int
deriving DecidableEq, Repr

inductive ItemType
  | health_potion | equipment
deriving DecidableEq, Repr

inductive EquipmentSlot
  | weapon | shield | armor | ranged
deriving DecidableEq, Repr

structure Equipment where
  id : String
  slot : EquipmentSlot
  name : String
  attackBonus : Int
  defenseBonus : Int
  hpBonus : Int
  rangedDamageBonus : Int
  rangedRangeBonus : Int
  tier : Int
deriving DecidableEq, Repr

/-- `Item`, with the `EquipmentItem` extension folded in as an optional
`equipment` payload (`none` for plain items). -/
structure Item where
  id : String
  type : ItemType
  name : String
  x : Int
  y : Int
  value : Int
  equipment : Option Equipment
deriving DecidableEq, Repr

/-- `isEquipmentItem`: the type-guard from the shared package. -/
def isEquipmentItem (item : Item) : Bool :=
  item.type == ItemType.equipment && item.equipment.isSome

def EQUIPMENT_DEFINITIONS : List Equipment :=
  [ ⟨"rusty_sword", .weapon, "Rusty Sword", 2, 0, 0, 0, 0, 1⟩,
    ⟨"iron_sword", .weapon, "Iron Sword", 4, 0, 0, 0, 0, 3⟩,
    ⟨"steel_sword", .weapon, "Steel Sword", 7, 0, 0, 0, 0, 6⟩,
    ⟨"wooden_shield", .shield, "Wooden Shield", 0, 2, 0, 0, 0, 1⟩,
    ⟨"iron_shield", .shield, "Iron Shield", 0, 4, 0, 0, 0, 4⟩,
    ⟨"leather_armor", .armor, "Leather Armor", 0, 1, 10, 0, 0, 1⟩,
    ⟨"chain_mail", .armor, "Chain Mail", 0, 3, 15, 0, 0, 3⟩,
    ⟨"plate_armor", .armor, "Plate Armor", 0, 5, 25, 0, 0, 6⟩,
    ⟨"throwing_daggers", .ranged, "Throwing Daggers", 0, 0, 0, 2, 0, 1⟩,
    ⟨"magic_daggers", .ranged, "Magic Daggers", 0, 0, 0, 4, 1, 4⟩,
    ⟨"crossbow", .ranged, "Crossbow", 0, 0, 0, 2, 0, 1⟩,
    ⟨"large_crossbow", .ranged, "Large Crossbow", 0, 0, 0, 4, 1, 4⟩,
    ⟨"crystal_staff", .ranged, "Crystal Staff", 0, 0, 0, 2, 0, 1⟩,
    ⟨"flame_staff", .ranged, "Flame Staff", 0, 0, 0, 5, 1, 5⟩ ]

/-- `getEquipmentForFloor`. -/
def getEquipmentForFloor (floor : Nat) : List Equipment :=
  EQUIPMENT_DEFINITIONS.filter (fun e => e.tier ≤ (floor : Int) + 1)

/-- `String.prototype.includes`, on character lists. -/
def charsHaveSub (needle : List Char) : List Char → Bool
  | [] => needle.isEmpty
  | c :: rest => needle.isPrefixOf (c :: rest) || charsHaveSub needle rest

def strIncludes (hay needle : String) : Bool :=
  charsHaveSub needle.data hay.data

inductive EnemyType
  | rat | skeleton | orc | dragon
deriving DecidableEq, Repr

inductive EnemyVariant
  | normal | elite | champion
deriving DecidableEq, Repr

inductive AIBehavior
  | aggressive | patrol | flee | stationary
deriving DecidableEq, Repr

structure BaseEnemyStats where
  hp : Nat
  attack : Nat
  defense : Nat
  xpReward : Nat
deriving DecidableEq, Repr

def ENEMY_STATS : EnemyType → BaseEnemyStats
  | .rat => ⟨6, 4, 0, 8⟩
  | .skeleton => ⟨15, 8, 2, 30⟩
  | .orc => ⟨25, 13, 4, 60⟩
  | .dragon => ⟨45, 20, 8, 200⟩

/-- Variant multipliers as exact rationals `num/den`; the float products
the source takes `Math.floor` of agree with the rational floors on every
entry of the stat tables. -/
structure VariantMultipliers where
  hpNum : Nat
  hpDen : Nat
  attackNum : Nat
  attackDen : Nat
  defenseNum : Nat
  defenseDen : Nat
  xpNum : Nat
  xpDen : Nat
  nameHead : String
deriving DecidableEq, Repr

def VARIANT_MULTIPLIERS : EnemyVariant → VariantMultipliers
  | .normal => ⟨1, 1, 1, 1, 1, 1, 1, 1, ""⟩
  | .elite => ⟨3, 2, 3, 2, 6, 5, 5, 2, "Elite "⟩
  | .champion => ⟨5, 2, 9, 5, 3, 2, 4, 1, "Champion "⟩

structure Enemy where
  id : String
  type : EnemyType
  variant : EnemyVariant
  displayName : String
  x : Int
  y : Int
  hp : Int
  maxHp : Int
  attack : Int
  defense : Int
  behavior : AIBehavior
  lastSeenPlayer : Option Coordinate
deriving DecidableEq, Repr

structure PlayerEquipment where
  weapon : Option Equipment
  shield : Option Equipment
  armor : Option Equipment
  ranged : Option Equipment
deriving DecidableEq, Repr

structure Player where
  x : Int
  y : Int
  hp : Int
  maxHp : Int
  attack : Int
  defense : Int
  inventory : List Item
  xp : Nat
  level : Nat
  xpToNextLevel : Nat
  equipment : PlayerEquipment
  character : CharacterType
  facingDirection : FacingDirection
deriving DecidableEq, Repr

inductive GameStatus
  | active | dead | won
deriving DecidableEq, Repr

structure GameState where
  playerName : String
  floor : Nat
  player : Player
  map : List (List Tile)
  enemies : List Enemy
  items : List Item
  fog : List (List Bool)
  status : GameStatus
  score : Nat
deriving DecidableEq, Repr

inductive Direction
  | up | down | left | right
deriving DecidableEq, Repr

def MAP_WIDTH : Nat := 40
def MAP_HEIGHT : Nat := 24
def VISION_RADIUS : Int := 5

/-- `getEnemyVariant`, with the `Math.random()` roll supplied in
thousandths of `[0,1)`. -/
def getEnemyVariant (floor : Nat) (roll : Nat) : EnemyVariant :=
  let eliteChance := min (100 + floor * 50) 400
  let championChance := min ((floor - 1) * 40) 200
  if roll % 1000 < championChance then .champion
  else if roll % 1000 < championChance + eliteChance then .elite
  else .normal

def capitalizeEnemyType : EnemyType → String
  | .rat => "Rat"
  | .skeleton => "Skeleton"
  | .orc => "Orc"
  | .dragon => "Dragon"

/-- `getEnemyBehavior`; rat/dragon are deterministic, skeleton/orc roll
`Math.random() < 0.7` (the roll again in thousandths). -/
def getEnemyBehavior (type : EnemyType) (roll : Nat) : AIBehavior :=
  match type with
  | .rat => .flee
  | .dragon => .aggressive
  | _ => if roll % 1000 < 700 then .aggressive else .patrol

/-- Whether `getEnemyBehavior` consumes a `Math.random()` draw. -/
def behaviorConsumesRoll : EnemyType → Bool
  | .rat => false
  | .dragon => false
  | _ => true

def scaleStat (base num den : Nat) : Nat := base * num / den

/-- `createEnemy`.  The variant roll is drawn first, then (for
skeleton/orc only) the behavior roll, mirroring evaluation order. -/
def createEnemy (id : String) (type : EnemyType) (x y : Int) (floor : Nat)
    (variantRoll behaviorRoll : Nat) : Enemy :=
  let variant := getEnemyVariant floor variantRoll
  let mult := VARIANT_MULTIPLIERS variant
  let base := ENEMY_STATS type
  { id := id
    type := type
    variant := variant
    displayName := mult.nameHead ++ capitalizeEnemyType type
    x := x
    y := y
    hp := Int.ofNat (scaleStat base.hp mult.hpNum mult.hpDen)
    maxHp := Int.ofNat (scaleStat base.hp mult.hpNum mult.hpDen)
    attack := Int.ofNat (scaleStat base.attack mult.attackNum mult.attackDen)
    defense := Int.ofNat (scaleStat base.defense mult.defenseNum mult.defenseDen)
    behavior := getEnemyBehavior type behaviorRoll
    lastSeenPlayer := none }

/-- `getEnemyXpReward`. -/
def getEnemyXpReward (enemy : Enemy) : Nat :=
  let mult := VARIANT_MULTIPLIERS enemy.variant
  scaleStat (ENEMY_STATS enemy.type).xpReward mult.xpNum mult.xpDen

/-- `getXpToNextLevel`. -/
def getXpToNextLevel (level : Nat) : Nat := level * 50

/-! ## 2D array helpers

JS indexes `m[y][x]`; out-of-range reads give `undefined`, which the
source only ever dereferences behind bounds checks or optional
chaining.  `lookup2` returns `none` out of range, and `set2` is the
in-range point update (all writes in the source are in range). -/

def lookup2 (m : List (List α)) (y x : Int) : Option α :=
  if y < 0 ∨ x < 0 then none
  else match m.get? y.toNat with
    | none => none
    | some row => row.get? x.toNat

def set2 (m : List (List α)) (y x : Int) (a : α) : List (List α) :=
  if y < 0 ∨ x < 0 then m
  else match m.get? y.toNat with
    | none => m
    | some row => m.set y.toNat (row.set x.toNat a)

/-- `m.length` (the height `state.map.length`). -/
def height2 (m : List (List α)) : Nat := m.length

/-- `m[0].length` (the width `state.map[0].length`). -/
def width2 (m : List (List α)) : Nat := (m.headD []).length

/-- `state.map[y]?.[x]?.type === 'wall'` (false when out of range). -/
def isWallCell (map : List (List Tile)) (y x : Int) : Bool :=
  match lookup2 map y x with
  | some t => t.type == TileType.wall
  | none => false

/-- `state.fog[y]?.[x] === true` (false when out of range). -/
def fogAt (fog : List (List Bool)) (y x : Int) : Bool :=
  (lookup2 fog y x).getD false

/-! ## Randomness -/

/-- The stream of `Math.random()` draws: call index ↦ raw draw. -/
abbrev Rng := Nat → Nat

/-- `randomInt(min, max)` = `Math.floor(Math.random() * (max - min + 1)) + min`,
with the draw mapped into the interval by remainder. -/
def randomInt (rng : Rng) (k : Nat) (lo hi : Int) : Int :=
  let n := (hi - lo + 1).toNat
  if n = 0 then lo else lo + Int.ofNat (rng k % n)

/-! ## Map generator (`apps/api/src/services/mapGenerator.ts`) -/

structure Room where
  x : Int
  y : Int
  width : Int
  height : Int
deriving DecidableEq, Repr

def roomsOverlap (a b : Room) : Bool :=
  a.x < b.x + b.width + 1 && a.x + a.width + 1 > b.x &&
    a.y < b.y + b.height + 1 && a.y + a.height + 1 > b.y

/-- The all-walls 24×40 initial map. -/
def initialWalls : List (List Tile) :=
  (List.range MAP_HEIGHT).map fun y =>
    (List.range MAP_WIDTH).map fun x =>
      { type := TileType.wall, x := Int.ofNat x, y := Int.ofNat y }

/-- The room-placement loop: up to 100 attempts (4 draws each), stopping
once `numRooms` rooms are accepted.  Accepted rooms are appended. -/
def genRoomsLoop (rng : Rng) (numRooms : Nat) :
    Nat → Nat → List Room → List Room × Nat
  | 0, k, rooms => (rooms, k)
  | fuel + 1, k, rooms =>
    if rooms.length ≥ numRooms then (rooms, k)
    else
      let room : Room :=
        { x := randomInt rng k 1 ((MAP_WIDTH : Int) - 10)
          y := randomInt rng (k + 1) 1 ((MAP_HEIGHT : Int) - 8)
          width := randomInt rng (k + 2) 4 8
          height := randomInt rng (k + 3) 4 6 }
      if room.x + room.width ≥ (MAP_WIDTH : Int) - 1 then
        genRoomsLoop rng numRooms fuel (k + 4) rooms
      else if room.y + room.height ≥ (MAP_HEIGHT : Int) - 1 then
        genRoomsLoop rng numRooms fuel (k + 4) rooms
      else if rooms.any (fun r => roomsOverlap room r) then
        genRoomsLoop rng numRooms fuel (k + 4) rooms
      else
        genRoomsLoop rng numRooms fuel (k + 4) (rooms ++ [room])

/-- `[a, a+1, …, b]` (empty when `b < a`). -/
def intRangeIncl (a b : Int) : List Int :=
  (List.range (b - a + 1).toNat).map fun i => a + Int.ofNat i

def carveRoom (map : List (List Tile)) (room : Room) : List (List Tile) :=
  (intRangeIncl room.y (room.y + room.height - 1)).foldl
    (fun m y =>
      (intRangeIncl room.x (room.x + room.width - 1)).foldl
        (fun m' x => set2 m' y x { type := TileType.floor, x := x, y := y }) m)
    map

/-- Horizontal span of `carveCorridor`: row `y`, `x` from `min` to `max`. -/
def carveH (map : List (List Tile)) (y x1 x2 : Int) : List (List Tile) :=
  (intRangeIncl (min x1 x2) (max x1 x2)).foldl
    (fun m x => set2 m y x { type := TileType.floor, x := x, y := y }) map

/-- Vertical span of `carveCorridor`: column `x`, `y` from `min` to `max`. -/
def carveV (map : List (List Tile)) (x y1 y2 : Int) : List (List Tile) :=
  (intRangeIncl (min y1 y2) (max y1 y2)).foldl
    (fun m y => set2 m y x { type := TileType.floor, x := x, y := y }) map

/-- `carveCorridor(x1, y1, x2, y2)`: horizontal at `y1`, then vertical at `x2`. -/
def carveCorridor (map : List (List Tile)) (x1 y1 x2 y2 : Int) : List (List Tile) :=
  carveV (carveH map y1 x1 x2) x2 y1 y2

/-- `Math.floor(room.x + room.width / 2)`. -/
def roomCenterX (r : Room) : Int := r.x + r.width.fdiv 2

def roomCenterY (r : Room) : Int := r.y + r.height.fdiv 2

/-- The float sort key `cx + 0.5·cy` scaled by 4 (exactly):
`4·(x + w/2) + 2·(y + h/2) = 4x + 2w + 2y + h`. -/
def roomSortKey (r : Room) : Int := 4 * r.x + 2 * r.width + 2 * r.y + r.height

/-- Stable insertion preserving the original order of equal keys. -/
def insertByKey (key : α → Int) (a : α) : List α → List α
  | [] => [a]
  | b :: rest =>
    if key a ≤ key b then a :: b :: rest else b :: insertByKey key a rest

/-- Stable sort by integer key (`Array.prototype.sort` is stable). -/
def stableSortBy (key : α → Int) : List α → List α
  | [] => []
  | a :: rest => insertByKey key a (stableSortBy key rest)

/-- Corridors between adjacent pairs in sorted order. -/
def carveChain (map : List (List Tile)) : List Room → List (List Tile)
  | a :: b :: rest =>
    carveChain
      (carveCorridor map (roomCenterX a) (roomCenterY a) (roomCenterX b) (roomCenterY b))
      (b :: rest)
  | _ => map

def ENEMY_TYPE_LIST : List EnemyType := [.rat, .skeleton, .orc, .dragon]

/-- The enemy-seeding loop.  One iteration consumes 4 draws plus the
variant roll plus (skeleton/orc only) the behavior roll. -/
def genEnemiesLoop (rng : Rng) (floor : Nat) (rooms : List Room)
    (availableTypes : List EnemyType) :
    Nat → Nat → Nat → List Enemy → List Enemy × Nat
  | 0, k, _, acc => (acc, k)
  | remaining + 1, k, i, acc =>
    let roomIndex := (randomInt rng k 1 ((rooms.length : Int) - 1)).toNat
    let room := (rooms.get? roomIndex).getD ⟨0, 0, 0, 0⟩
    let ex := randomInt rng (k + 1) room.x (room.x + room.width - 1)
    let ey := randomInt rng (k + 2) room.y (room.y + room.height - 1)
    let tIdx := (randomInt rng (k + 3) 0 ((availableTypes.length : Int) - 1)).toNat
    let type := (availableTypes.get? tIdx).getD .rat
    let variantRoll := rng (k + 4)
    let usesBehaviorRoll := behaviorConsumesRoll type
    let behaviorRoll := if usesBehaviorRoll then rng (k + 5) else 0
    let nextK := if usesBehaviorRoll then k + 6 else k + 5
    let enemy := createEnemy ("enemy" ++ Nat.repr i) type ex ey floor variantRoll behaviorRoll
    genEnemiesLoop rng floor rooms availableTypes remaining nextK (i + 1) (acc ++ [enemy])

/-- The potion-seeding loop: 3 draws per potion. -/
def genPotionsLoop (rng : Rng) (rooms : List Room) :
    Nat → Nat → Nat → List Item → List Item × Nat
  | 0, k, _, acc => (acc, k)
  | remaining + 1, k, i, acc =>
    let roomIndex := (randomInt rng k 0 ((rooms.length : Int) - 1)).toNat
    let room := (rooms.get? roomIndex).getD ⟨0, 0, 0, 0⟩
    let ix := randomInt rng (k + 1) room.x (room.x + room.width - 1)
    let iy := randomInt rng (k + 2) room.y (room.y + room.height - 1)
    let item : Item :=
      { id := "potion" ++ Nat.repr i
        type := .health_potion
        name := "Health Potion"
        x := ix, y := iy, value := 10, equipment := none }
    genPotionsLoop rng rooms remaining (k + 3) (i + 1) (acc ++ [item])

/-- The equipment-seeding loop: 4 draws per item. -/
def genEquipmentLoop (rng : Rng) (rooms : List Room) (pool : List Equipment) :
    Nat → Nat → Nat → List Item → List Item × Nat
  | 0, k, _, acc => (acc, k)
  | remaining + 1, k, i, acc =>
    if pool.length = 0 then (acc, k)
    else
      let roomIndex := (randomInt rng k 0 ((rooms.length : Int) - 1)).toNat
      let room := (rooms.get? roomIndex).getD ⟨0, 0, 0, 0⟩
      let ix := randomInt rng (k + 1) room.x (room.x + room.width - 1)
      let iy := randomInt rng (k + 2) room.y (room.y + room.height - 1)
      let eIdx := (randomInt rng (k + 3) 0 ((pool.length : Int) - 1)).toNat
      let eq := (pool.get? eIdx).getD ⟨"", .weapon, "", 0, 0, 0, 0, 0, 0⟩
      let item : Item :=
        { id := "equip" ++ Nat.repr i
          type := .equipment
          name := eq.name
          x := ix, y := iy, value := 0, equipment := some eq }
      genEquipmentLoop rng rooms pool remaining (k + 4) (i + 1) (acc ++ [item])

/-- The per-character ranged-slot filter of the equipment pool. -/
def equipmentAllowed (character : CharacterType) (e : Equipment) : Bool :=
  if e.slot != EquipmentSlot.ranged then true
  else
    match character with
    | .wizard => strIncludes e.id "staff"
    | .bandit => strIncludes e.id "crossbow"
    | .elf => strIncludes e.id "dagger"
    | .dwarf => strIncludes e.id "dagger"

structure GenResult where
  map : List (List Tile)
  playerStart : Coordinate
  enemies : List Enemy
  items : List Item
deriving DecidableEq, Repr

/-- `generateMap(floor, character)`, with the draw stream and its start
index explicit.  `none` models the crash on an empty room list
(`rooms[rooms.length - 1]` is `undefined`). -/
def generateMap (rng : Rng) (k0 : Nat) (floor : Nat) (character : CharacterType) :
    Option GenResult :=
  let numRooms := (randomInt rng k0 5 8).toNat
  let roomsR := genRoomsLoop rng numRooms 100 (k0 + 1) []
  let roomsRaw := roomsR.1
  let k1 := roomsR.2
  let map0 := roomsRaw.foldl carveRoom initialWalls
  let rooms := stableSortBy roomSortKey roomsRaw
  let map1 := carveChain map0 rooms
  let map2 :=
    match rooms.head?, rooms.getLast? with
    | some first, some lastR =>
      if rooms.length ≥ 2 then
        carveCorridor map1 (roomCenterX first) (roomCenterY first)
          (roomCenterX lastR) (roomCenterY lastR)
      else map1
    | _, _ => map1
  match rooms.head?, rooms.getLast? with
  | some firstRoom, some lastRoom =>
    let stairsX := roomCenterX lastRoom
    let stairsY := roomCenterY lastRoom
    let map3 := set2 map2 stairsY stairsX { type := TileType.stairs, x := stairsX, y := stairsY }
    let playerStart : Coordinate := ⟨roomCenterX firstRoom, roomCenterY firstRoom⟩
    let numEnemies := (randomInt rng k1 3 5).toNat + floor / 2
    let availableTypes := ENEMY_TYPE_LIST.take (min (1 + floor / 3) 4)
    let enemiesR :=
      if rooms.length > 1 then
        genEnemiesLoop rng floor rooms availableTypes numEnemies (k1 + 1) 0 []
      else ([], k1 + 1)
    let enemies := enemiesR.1
    let k2 := enemiesR.2
    let numPotions := (randomInt rng k2 1 3).toNat
    let potionsR := genPotionsLoop rng rooms numPotions (k2 + 1) 0 []
    let potions := potionsR.1
    let k3 := potionsR.2
    let pool := (getEquipmentForFloor floor).filter (equipmentAllowed character)
    let numEquipment := (randomInt rng k3 1 2).toNat
    let equipItems := (genEquipmentLoop rng rooms pool numEquipment (k3 + 1) 0 []).1
    some { map := map3, playerStart := playerStart, enemies := enemies,
           items := potions ++ equipItems }
  | _, _ => none

/-- `initializeFog()`: 24×40, all `false`. -/
def initializeFog : List (List Bool) :=
  (List.range MAP_HEIGHT).map fun _ => (List.range MAP_WIDTH).map fun _ => false

/-! ## Events and deltas (`gameLogic.ts`, shared types)

The opaque `id` and presentational `message` fields are omitted; the
typed `data` payloads are kept. -/

inductive AttackType
  | bolt | dagger | magic_dagger | spell
deriving DecidableEq, Repr

inductive GameEvent
  | playerMoved
  | playerAttacked (targetX targetY damage : Int) (enemyId : String)
  | playerDamaged
  | playerHealed (itemId : String) (healAmount : Int)
  | potionRefused
  | rangedAttack (targetX targetY damage : Int) (enemyId : Option String) (attackType : AttackType)
  | rangedMissed (targetX targetY damage : Int) (enemyId : Option String) (attackType : AttackType)
  | enemyKilled (enemyId : String) (enemyType : EnemyType)
  | itemPickedUp (itemId itemName : String)
  | floorDescended
  | playerDied (killedBy : EnemyType)
  | gameWon
  | xpGained (amount totalXp : Nat)
  | levelUp (newLevel : Nat) (hpGained attackGained defenseGained : Int)
  | equipmentEquipped (itemId : String) (equipment : Equipment) (slot : EquipmentSlot)
  | equipmentFound (equipment : Equipment) (notBetter : Bool)
deriving DecidableEq, Repr

/-- `isItemPickupEvent` (player_healed or item_picked_up, with payload). -/
def eventPickedItemId : GameEvent → Option String
  | .playerHealed itemId _ => some itemId
  | .itemPickedUp itemId _ => some itemId
  | _ => none

/-- `isEquipmentEquippedEvent`, with payload. -/
def eventEquippedItemId : GameEvent → Option String
  | .equipmentEquipped itemId _ _ => some itemId
  | _ => none

def isFloorDescendedEvent : GameEvent → Bool
  | .floorDescended => true
  | _ => false

structure VisibleGameState where
  playerName : String
  floor : Nat
  player : Player
  visibleTiles : List Tile
  visibleEnemies : List Enemy
  visibleItems : List Item
  fog : List (List Bool)
  status : GameStatus
  score : Nat
deriving DecidableEq, Repr

inductive GameDelta
  | playerPos (x y : Int) (facingDirection : FacingDirection)
  | playerStats (hp maxHp attack defense : Option Int)
      (xp level xpToNextLevel : Option Nat)
  | playerEquipment (equipment : PlayerEquipment)
  | score (score : Nat)
  | fogReveal (cells : List (Int × Int))
  | tilesReveal (tiles : List Tile)
  | enemyVisible (enemy : Enemy)
  | enemyKilled (enemyId : String)
  | enemyHidden (enemyId : String)
  | enemyMoved (enemyId : String) (x y : Int)
  | enemyDamaged (enemyId : String) (hp : Int)
  | itemVisible (item : Item)
  | itemRemoved (itemId : String)
  | gameStatus (status : GameStatus)
  | event (e : GameEvent)
  | newFloor (visibleState : VisibleGameState)
deriving DecidableEq, Repr

/-! ## Visibility filtering (`gameLogic.ts`) -/

def getVisibleEnemies (st : GameState) : List Enemy :=
  st.enemies.filter fun e => decide (0 < e.hp) && fogAt st.fog e.y e.x

def getVisibleItems (st : GameState) : List Item :=
  st.items.filter fun i => fogAt st.fog i.y i.x

def getVisibleTiles (st : GameState) : List Tile :=
  (List.range (height2 st.map)).flatMap fun y =>
    (List.range (width2 st.map)).flatMap fun x =>
      if fogAt st.fog (Int.ofNat y) (Int.ofNat x) then
        (lookup2 st.map (Int.ofNat y) (Int.ofNat x)).toList
      else []

def getVisibleState (st : GameState) : VisibleGameState :=
  { playerName := st.playerName
    floor := st.floor
    player := st.player
    visibleTiles := getVisibleTiles st
    visibleEnemies := getVisibleEnemies st
    visibleItems := getVisibleItems st
    fog := st.fog
    status := st.status
    score := st.score }

/-! ## Fog update -/

def visionOffsets : List Int := intRangeIncl (-VISION_RADIUS) VISION_RADIUS

/-- `updateFog`: reveal every in-bounds cell within Euclidean distance
`VISION_RADIUS` of the player (`√(dx²+dy²) ≤ R  ↔  dx²+dy² ≤ R²`). -/
def updateFog (st : GameState) : GameState :=
  let px := st.player.x
  let py := st.player.y
  let newFog :=
    visionOffsets.foldl
      (fun fog dy =>
        visionOffsets.foldl
          (fun fog' dx =>
            let x := px + dx
            let y := py + dy
            if 0 ≤ x ∧ x < (width2 st.map : Int) ∧ 0 ≤ y ∧ y < (height2 st.map : Int) then
              if dx * dx + dy * dy ≤ VISION_RADIUS * VISION_RADIUS then
                set2 fog' y x true
              else fog'
            else fog')
          fog)
      st.fog
  { st with fog := newFog }

/-! ## Line of sight (Bresenham) -/

/-- One step of the `hasLineOfSight` loop; `fuel` is the remaining
iteration budget (`MAP_WIDTH + MAP_HEIGHT`). -/
def losLoop (map : List (List Tile)) (x1 y1 x2 y2 sx sy dx dy : Int) :
    Nat → Int → Int → Int → Bool
  | 0, _, _, _ => false
  | fuel + 1, x, y, err =>
    if (x ≠ x1 ∨ y ≠ y1) ∧ x = x2 ∧ y = y2 then true
    else if (x ≠ x1 ∨ y ≠ y1) ∧ isWallCell map y x then false
    else if x = x2 ∧ y = y2 then true
    else
      let e2 := 2 * err
      let x' := if e2 > -dy then x + sx else x
      let err1 := if e2 > -dy then err - dy else err
      let y' := if e2 < dx then y + sy else y
      let err2 := if e2 < dx then err1 + dx else err1
      if x' = x ∧ y' = y then false
      else losLoop map x1 y1 x2 y2 sx sy dx dy fuel x' y' err2

def hasLineOfSight (st : GameState) (x1 y1 x2 y2 : Int) : Bool :=
  if x1 = x2 ∧ y1 = y2 then true
  else
    let dx := |x2 - x1|
    let dy := |y2 - y1|
    let sx : Int := if x1 < x2 then 1 else -1
    let sy : Int := if y1 < y2 then 1 else -1
    losLoop st.map x1 y1 x2 y2 sx sy dx dy (MAP_WIDTH + MAP_HEIGHT) x1 y1 (dx - dy)

/-! ## Pathfinder (bounded BFS) -/

structure PathNode where
  x : Int
  y : Int
  path : List Coordinate
deriving DecidableEq, Repr

def bfsDirs : List (Int × Int) := [(0, -1), (0, 1), (-1, 0), (1, 0)]

/-- Expand one node's neighbors in direction order.  `Sum.inl` is the
early `return` (target found), `Sum.inr` the updated queue and visited
set. -/
def bfsNeighbors (st : GameState) (targetX targetY : Int) (cur : PathNode) :
    List (Int × Int) → List PathNode → List (Int × Int) →
    Sum (Option Coordinate) (List PathNode × List (Int × Int))
  | [], queue, visited => Sum.inr (queue, visited)
  | (ddx, ddy) :: dirs, queue, visited =>
    let nx := cur.x + ddx
    let ny := cur.y + ddy
    if (nx, ny) ∈ visited then bfsNeighbors st targetX targetY cur dirs queue visited
    else
      let visited' := visited ++ [(nx, ny)]
      if nx < 0 ∨ nx ≥ (width2 st.map : Int) ∨ ny < 0 ∨ ny ≥ (height2 st.map : Int) then
        bfsNeighbors st targetX targetY cur dirs queue visited'
      else if isWallCell st.map ny nx then
        bfsNeighbors st targetX targetY cur dirs queue visited'
      else
        let hasEnemy := st.enemies.any fun e => e.x == nx && e.y == ny && decide (0 < e.hp)
        let isPlayer := nx == st.player.x && ny == st.player.y
        let newPath := cur.path ++ [⟨nx, ny⟩]
        if nx = targetX ∧ ny = targetY then Sum.inl newPath.head?
        else if !hasEnemy && !isPlayer then
          bfsNeighbors st targetX targetY cur dirs (queue ++ [⟨nx, ny, newPath⟩]) visited'
        else bfsNeighbors st targetX targetY cur dirs queue visited'

/-- The BFS main loop; `fuel` is the `MAX_ITERATIONS = W·H` cap. -/
def bfsLoop (st : GameState) (targetX targetY : Int) (maxDistance : Nat) :
    Nat → List PathNode → List (Int × Int) → Option Coordinate
  | 0, _, _ => none
  | fuel + 1, queue, visited =>
    match queue with
    | [] => none
    | cur :: rest =>
      if cur.path.length ≥ maxDistance then bfsLoop st targetX targetY maxDistance fuel rest visited
      else
        match bfsNeighbors st targetX targetY cur bfsDirs rest visited with
        | Sum.inl res => res
        | Sum.inr (q', v') => bfsLoop st targetX targetY maxDistance fuel q' v'

/-- `findPathToTarget` (with the default `maxDistance = 20`). -/
def findPathToTarget (st : GameState) (startX startY targetX targetY : Int) :
    Option Coordinate :=
  if startX = targetX ∧ startY = targetY then none
  else
    bfsLoop st targetX targetY 20 (MAP_WIDTH * MAP_HEIGHT)
      [⟨startX, startY, []⟩] [(startX, startY)]

/-! ## Enemy movement predicates -/

/-- `canMoveToTile`; the enemy `e !== enemy` reference comparison is
modelled by the enemy's index in `state.enemies`. -/
def canMoveToTile (st : GameState) (selfIdx : Nat) (x y : Int) : Bool :=
  if x < 0 ∨ x ≥ (width2 st.map : Int) ∨ y < 0 ∨ y ≥ (height2 st.map : Int) then false
  else if isWallCell st.map y x then false
  else if x = st.player.x ∧ y = st.player.y then false
  else if st.enemies.enum.any
      (fun p => p.1 != selfIdx && p.2.x == x && p.2.y == y && decide (0 < p.2.hp)) then
    false
  else true

def isAdjacentToPlayer (enemy : Enemy) (px py : Int) : Bool :=
  let dx := |px - enemy.x|
  let dy := |py - enemy.y|
  (dx == 1 && dy == 0) || (dx == 0 && dy == 1)

def setEnemy (st : GameState) (i : Nat) (e : Enemy) : GameState :=
  { st with enemies := st.enemies.set i e }

/-! ## Combat and progression -/

def getEnemyScore : EnemyType → Nat
  | .rat => 10
  | .skeleton => 25
  | .orc => 50
  | .dragon => 200

/-- One iteration of the level-up loop body. -/
def levelUpStep (p : Player) : Player :=
  let xp' := p.xp - p.xpToNextLevel
  let level' := p.level + 1
  let maxHp' := p.maxHp + 3
  let healAmount := maxHp'.fdiv 2
  let hp' := min maxHp' (p.hp + healAmount)
  { p with xp := xp', level := level', maxHp := maxHp', hp := hp',
           attack := p.attack + 1, defense := p.defense + 1,
           xpToNextLevel := getXpToNextLevel level' }

/-- The `while (xp ≥ xpToNextLevel)` loop, with an explicit fuel bound
(the JS loop's own termination is claim C7). -/
def levelLoop : Nat → Player → Player × List GameEvent
  | 0, p => (p, [])
  | fuel + 1, p =>
    if p.xp ≥ p.xpToNextLevel then
      let p' := levelUpStep p
      let r := levelLoop fuel p'
      (r.1, GameEvent.levelUp p'.level 3 1 1 :: r.2)
    else (p, [])

/-- `grantXp`. -/
def grantXp (st : GameState) (enemy : Enemy) : GameState × List GameEvent :=
  let xpReward := getEnemyXpReward enemy
  let p0 := { st.player with xp := st.player.xp + xpReward }
  let r := levelLoop (p0.xp + 2) p0
  ({ st with player := r.1 }, GameEvent.xpGained xpReward p0.xp :: r.2)

/-- `attackEnemy` (melee), by enemy index. -/
def attackEnemy (st : GameState) (idx : Nat) : GameState × List GameEvent :=
  match st.enemies.get? idx with
  | none => (st, [])
  | some enemy =>
    let damage := max 1 (st.player.attack - enemy.defense)
    let enemy' := { enemy with hp := enemy.hp - damage }
    let st1 := setEnemy st idx enemy'
    let ev1 := GameEvent.playerAttacked enemy.x enemy.y damage enemy.id
    if enemy'.hp ≤ 0 then
      let st2 := { st1 with score := st1.score + getEnemyScore enemy.type }
      let r := grantXp st2 enemy'
      (r.1, ev1 :: GameEvent.enemyKilled enemy.id enemy.type :: r.2)
    else (st1, [ev1])

/-! ## Equipment -/

def getEquipmentTotalBonus (e : Equipment) : Int :=
  e.attackBonus + e.defenseBonus + e.hpBonus + e.rangedDamageBonus + e.rangedRangeBonus

def getSlot (pe : PlayerEquipment) : EquipmentSlot → Option Equipment
  | .weapon => pe.weapon
  | .shield => pe.shield
  | .armor => pe.armor
  | .ranged => pe.ranged

def setSlot (pe : PlayerEquipment) (slot : EquipmentSlot) (e : Equipment) :
    PlayerEquipment :=
  match slot with
  | .weapon => { pe with weapon := some e }
  | .shield => { pe with shield := some e }
  | .armor => { pe with armor := some e }
  | .ranged => { pe with ranged := some e }

/-- `handleEquipmentPickup`, given the item, its (guarded-nonempty)
equipment payload, and its index in `state.items`. -/
def handleEquipmentPickup (st : GameState) (item : Item) (equipment : Equipment)
    (itemIndex : Nat) : GameState × List GameEvent :=
  let slot := equipment.slot
  let currentEquipment := getSlot st.player.equipment slot
  let currentBonus :=
    match currentEquipment with
    | some c => getEquipmentTotalBonus c
    | none => 0
  let newBonus := getEquipmentTotalBonus equipment
  let isBetter := newBonus > currentBonus
  if isBetter ∨ currentEquipment = none then
    let items' := st.items.eraseIdx itemIndex
    let p0 := st.player
    let p1 :=
      match currentEquipment with
      | some c =>
        { p0 with attack := p0.attack - c.attackBonus,
                  defense := p0.defense - c.defenseBonus,
                  maxHp := p0.maxHp - c.hpBonus }
      | none => p0
    let p2 :=
      { p1 with equipment := setSlot p1.equipment slot equipment,
                attack := p1.attack + equipment.attackBonus,
                defense := p1.defense + equipment.defenseBonus,
                maxHp := p1.maxHp + equipment.hpBonus }
    let p3 := if p2.hp > p2.maxHp then { p2 with hp := p2.maxHp } else p2
    ({ st with items := items', player := p3 },
      [GameEvent.equipmentEquipped item.id equipment slot])
  else
    (st, [GameEvent.equipmentFound equipment true])

/-! ## Enemy AI (`moveEnemies` and helpers) -/

/-- `enemyAttackPlayer`. -/
def enemyAttackPlayer (st : GameState) (enemy : Enemy) : GameState × List GameEvent :=
  let damage := max 1 (enemy.attack - st.player.defense)
  let p' : Player := { st.player with hp := st.player.hp - damage }
  let st1 := { st with player := p' }
  if p'.hp ≤ 0 then
    ({ st1 with status := .dead },
      [GameEvent.playerDamaged, GameEvent.playerDied enemy.type])
  else (st1, [GameEvent.playerDamaged])

def MAX_PATHFINDING_ENEMIES : Nat := 5

/-- Result of processing one enemy inside `moveEnemies`: the updated
state, this enemy's events, the updated pathfinding budget counter, and
whether the loop `return`s early (the player died). -/
structure EnemyStepResult where
  state : GameState
  events : List GameEvent
  pathCount : Nat
  halted : Bool

def tileTypeAt (map : List (List Tile)) (y x : Int) : Option TileType :=
  (lookup2 map y x).map (·.type)

/-- The shared aggressive logic (also the flee fall-through). -/
def aggressiveCore (st1 : GameState) (e1 : Enemy) (idx : Nat) (canSee : Bool)
    (pathCount : Nat) (px py : Int) : EnemyStepResult :=
  if canSee = false ∧ e1.lastSeenPlayer = none then ⟨st1, [], pathCount, false⟩
  else
    let targetX := if canSee then px else
      match e1.lastSeenPlayer with
      | some c => c.x
      | none => px
    let targetY := if canSee then py else
      match e1.lastSeenPlayer with
      | some c => c.y
      | none => py
    if isAdjacentToPlayer e1 px py then
      let r := enemyAttackPlayer st1 e1
      ⟨r.1, r.2, pathCount, r.1.status = .dead⟩
    else
      let doPath := pathCount < MAX_PATHFINDING_ENEMIES
      let step := if doPath then findPathToTarget st1 e1.x e1.y targetX targetY else none
      let pathCount' := if doPath then pathCount + 1 else pathCount
      match step with
      | some s =>
        if s.x = px ∧ s.y = py then
          let r := enemyAttackPlayer st1 e1
          ⟨r.1, r.2, pathCount', r.1.status = .dead⟩
        else if canMoveToTile st1 idx s.x s.y then
          let e2 := { e1 with x := s.x, y := s.y }
          let st2 := setEnemy st1 idx e2
          if isAdjacentToPlayer e2 px py then
            let r := enemyAttackPlayer st2 e2
            ⟨r.1, r.2, pathCount', r.1.status = .dead⟩
          else ⟨st2, [], pathCount', false⟩
        else ⟨st1, [], pathCount', false⟩
      | none =>
        match e1.lastSeenPlayer with
        | some l =>
          if canSee = false ∧ e1.x = l.x ∧ e1.y = l.y then
            ⟨setEnemy st1 idx { e1 with lastSeenPlayer := none }, [], pathCount', false⟩
          else ⟨st1, [], pathCount', false⟩
        | none => ⟨st1, [], pathCount', false⟩

/-- The behavior dispatch of one enemy's turn, after the line-of-sight
memory update produced `st1` and `e1`. -/
def enemyDispatch (st1 : GameState) (e1 : Enemy) (idx : Nat) (canSee : Bool)
    (pathCount : Nat) (px py : Int) : EnemyStepResult :=
  match e1.behavior with
  | .flee =>
        if 10 * e1.hp < 3 * e1.maxHp ∧ canSee = true then
          let fleeX := e1.x + (if e1.x > px then 1 else -1)
          let fleeY := e1.y + (if e1.y > py then 1 else -1)
          if canMoveToTile st1 idx fleeX e1.y then
            ⟨setEnemy st1 idx { e1 with x := fleeX }, [], pathCount, false⟩
          else if canMoveToTile st1 idx e1.x fleeY then
            ⟨setEnemy st1 idx { e1 with y := fleeY }, [], pathCount, false⟩
          else ⟨st1, [], pathCount, false⟩
        else aggressiveCore st1 e1 idx canSee pathCount px py
  | .aggressive => aggressiveCore st1 e1 idx canSee pathCount px py
  | .patrol =>
        if canSee then
          if isAdjacentToPlayer e1 px py then
            let r := enemyAttackPlayer st1 e1
            ⟨r.1, r.2, pathCount, r.1.status = .dead⟩
          else
            let doPath := pathCount < MAX_PATHFINDING_ENEMIES
            let step := if doPath then findPathToTarget st1 e1.x e1.y px py else none
            let pathCount' := if doPath then pathCount + 1 else pathCount
            match step with
            | some s =>
              if canMoveToTile st1 idx s.x s.y then
                let e2 := { e1 with x := s.x, y := s.y }
                let st2 := setEnemy st1 idx e2
                if isAdjacentToPlayer e2 px py then
                  let r := enemyAttackPlayer st2 e2
                  ⟨r.1, r.2, pathCount', r.1.status = .dead⟩
                else ⟨st2, [], pathCount', false⟩
              else ⟨st1, [], pathCount', false⟩
            | none => ⟨st1, [], pathCount', false⟩
        else ⟨st1, [], pathCount, false⟩
  | .stationary =>
        if isAdjacentToPlayer e1 px py then
          let r := enemyAttackPlayer st1 e1
          ⟨r.1, r.2, pathCount, r.1.status = .dead⟩
        else ⟨st1, [], pathCount, false⟩

/-- One enemy's turn inside `moveEnemies`: the detection-radius check,
the line-of-sight memory update, then the behavior dispatch.  `dist` is
the Manhattan distance computed from the pre-loop snapshot. -/
def enemyStep (st : GameState) (px py : Int) (idx : Nat) (dist : Int)
    (pathCount : Nat) : EnemyStepResult :=
  match st.enemies.get? idx with
  | none => ⟨st, [], pathCount, false⟩
  | some e0 =>
    if dist > VISION_RADIUS + 2 then ⟨st, [], pathCount, false⟩
    else
      let canSee := hasLineOfSight st e0.x e0.y px py
      let e1 := if canSee then { e0 with lastSeenPlayer := some ⟨px, py⟩ } else e0
      enemyDispatch (setEnemy st idx e1) e1 idx canSee pathCount px py

/-- The fold over the distance-sorted live-enemy snapshot. -/
def moveEnemiesGo (px py : Int) :
    List (Nat × Int) → GameState → List GameEvent → Nat → GameState × List GameEvent
  | [], st, evs, _ => (st, evs)
  | (idx, dist) :: rest, st, evs, pc =>
    let r := enemyStep st px py idx dist pc
    if r.halted then (r.state, evs ++ r.events)
    else moveEnemiesGo px py rest r.state (evs ++ r.events) r.pathCount

/-- `moveEnemies`: snapshot the live enemies with their Manhattan
distances, process in ascending (stable) distance order. -/
def moveEnemies (st : GameState) : GameState × List GameEvent :=
  let px := st.player.x
  let py := st.player.y
  let active :=
    (st.enemies.enum.filter fun p => decide (0 < p.2.hp)).map
      fun p => (p.1, |p.2.x - px| + |p.2.y - py|)
  let sorted := stableSortBy (fun p => p.2) active
  moveEnemiesGo px py sorted st [] 0

/-! ## Turn engine -/

def directionDelta : Direction → Int × Int
  | .left => (-1, 0)
  | .right => (1, 0)
  | .up => (0, -1)
  | .down => (0, 1)

/-- Facing updates only on horizontal intents. -/
def updateFacing (st : GameState) (direction : Direction) : GameState :=
  match direction with
  | .left => { st with player := { st.player with facingDirection := .left } }
  | .right => { st with player := { st.player with facingDirection := .right } }
  | _ => st

/-- The item-pickup block of `processMove` at the destination tile. -/
def pickupAt (st : GameState) (newX newY : Int) : GameState × List GameEvent :=
  match st.items.enum.find? (fun p => p.2.x == newX && p.2.y == newY) with
  | none => (st, [])
  | some (itemIndex, item) =>
    if item.type = .health_potion then
      if st.player.hp ≥ st.player.maxHp then (st, [GameEvent.potionRefused])
      else
        let healAmount := min item.value (st.player.maxHp - st.player.hp)
        let st' := { st with
          items := st.items.eraseIdx itemIndex
          player := { st.player with hp := st.player.hp + healAmount } }
        (st', [GameEvent.playerHealed item.id healAmount])
    else if isEquipmentItem item then
      match item.equipment with
      | some eq => handleEquipmentPickup st item eq itemIndex
      | none => (st, [])
    else
      let st' := { st with
        items := st.items.eraseIdx itemIndex
        player := { st.player with inventory := st.player.inventory ++ [item] } }
      (st', [GameEvent.itemPickedUp item.id item.name])

/-- `descendStairs`.  `none` models the `generateMap` crash. -/
def descendStairs (st : GameState) (rng : Rng) (k : Nat) :
    Option (GameState × List GameEvent) :=
  if st.status ≠ .active then some (st, [])
  else if tileTypeAt st.map st.player.y st.player.x ≠ some .stairs then some (st, [])
  else
    let newFloor := st.floor + 1
    match generateMap rng k newFloor st.player.character with
    | none => none
    | some gen =>
      let st1 := { st with
        floor := newFloor
        map := gen.map
        player := { st.player with x := gen.playerStart.x, y := gen.playerStart.y }
        enemies := gen.enemies
        items := gen.items
        fog := initializeFog }
      let st2 := updateFog st1
      let st3 := { st2 with score := st2.score + 100 }
      if newFloor ≥ 20 then
        some ({ st3 with status := .won, score := st3.score + 1000 },
          [GameEvent.floorDescended, GameEvent.gameWon])
      else some (st3, [GameEvent.floorDescended])

/-- Fog update then enemy AI — the tail of a non-descend `processMove`. -/
def finishTurn (st : GameState) (evs : List GameEvent) :
    GameState × List GameEvent :=
  let stF := updateFog st
  if stF.status = .active then
    let r := moveEnemies stF
    (r.1, evs ++ r.2)
  else (stF, evs)

/-- `processMove`. -/
def processMove (st : GameState) (direction : Direction) (rng : Rng) (k : Nat) :
    Option (GameState × List GameEvent) :=
  if st.status ≠ .active then some (st, [])
  else
    let d := directionDelta direction
    let newX := st.player.x + d.1
    let newY := st.player.y + d.2
    if newY < 0 ∨ newY ≥ (height2 st.map : Int) ∨ newX < 0 ∨ newX ≥ (width2 st.map : Int) then
      some (st, [])
    else if isWallCell st.map newY newX then some (st, [])
    else
      match st.enemies.enum.find?
          (fun p => p.2.x == newX && p.2.y == newY && decide (0 < p.2.hp)) with
      | some (idx, _) =>
        let st1 := updateFacing st direction
        let r := attackEnemy st1 idx
        some (finishTurn r.1 r.2)
      | none =>
        let st1 := { st with player := { st.player with x := newX, y := newY } }
        let st2 := updateFacing st1 direction
        let pick := pickupAt st2 newX newY
        let st3 := pick.1
        let evs := GameEvent.playerMoved :: pick.2
        if tileTypeAt st3.map newY newX = some .stairs then
          match descendStairs st3 rng k with
          | none => none
          | some (st4, descendEvents) => some (st4, evs ++ descendEvents)
        else some (finishTurn st3 evs)

def getAttackType : CharacterType → AttackType
  | .bandit => .bolt
  | .wizard => .spell
  | .elf => .magic_dagger
  | .dwarf => .dagger

/-- The projectile scan of `processAttack`: cells `(px + dx·i, py)` for
`i = 1..range`, stopping at the map edge, the first wall, or the first
live enemy; returns the hit enemy (with its index) and the final
`hitX`/`hitY`. -/
def rangedScanGo (st : GameState) (dx px py : Int) :
    Nat → Int → Int × Int → Option (Nat × Enemy) × Int × Int
  | 0, _, hxy => (none, hxy.1, hxy.2)
  | rem + 1, i, hxy =>
    let checkX := px + dx * i
    let checkY := py
    if checkX < 0 ∨ checkX ≥ (width2 st.map : Int) then
      (none, px + dx * (i - 1), hxy.2)
    else if isWallCell st.map checkY checkX then (none, checkX, checkY)
    else
      match st.enemies.enum.find?
          (fun p => p.2.x == checkX && p.2.y == checkY && decide (0 < p.2.hp)) with
      | some (j, e) => (some (j, e), checkX, checkY)
      | none => rangedScanGo st dx px py rem (i + 1) (checkX, checkY)

/-- `processAttack` (the spacebar ranged attack). -/
def processAttack (st : GameState) : GameState × List GameEvent :=
  if st.status ≠ .active then (st, [])
  else
    let stats := CHARACTER_STATS st.player.character
    let rangedEquipment := getSlot st.player.equipment .ranged
    let rangedDamage := stats.rangedDamage +
      (match rangedEquipment with
       | some e => e.rangedDamageBonus
       | none => 0)
    let rangedRange := stats.rangedRange +
      (match rangedEquipment with
       | some e => e.rangedRangeBonus
       | none => 0)
    let attackType := getAttackType st.player.character
    let dx : Int := if st.player.facingDirection = .right then 1 else -1
    let px := st.player.x
    let py := st.player.y
    let scan := rangedScanGo st dx px py rangedRange.toNat 1 (px, py)
    match scan.1 with
    | some (j, enemy) =>
      let damage := max 1 (rangedDamage - enemy.defense)
      let enemy' := { enemy with hp := enemy.hp - damage }
      let st1 := setEnemy st j enemy'
      let ev1 := GameEvent.rangedAttack scan.2.1 scan.2.2 damage (some enemy.id) attackType
      let hit :=
        if enemy'.hp ≤ 0 then
          let stS := { st1 with score := st1.score + getEnemyScore enemy.type }
          let r := grantXp stS enemy'
          (r.1, GameEvent.enemyKilled enemy.id enemy.type :: r.2)
        else (st1, ([] : List GameEvent))
      let tail :=
        if hit.1.status = .active then moveEnemies hit.1 else (hit.1, [])
      (tail.1, ev1 :: hit.2 ++ tail.2)
    | none =>
      let ev1 := GameEvent.rangedMissed scan.2.1 scan.2.2 0 none attackType
      let tail := if st.status = .active then moveEnemies st else (st, [])
      (tail.1, ev1 :: tail.2)

/-! ## Delta engine -/

def playerStatsDelta (prev cur : Player) : List GameDelta :=
  if cur.hp ≠ prev.hp ∨ cur.maxHp ≠ prev.maxHp ∨ cur.attack ≠ prev.attack ∨
      cur.defense ≠ prev.defense ∨ cur.xp ≠ prev.xp ∨ cur.level ≠ prev.level ∨
      cur.xpToNextLevel ≠ prev.xpToNextLevel then
    [GameDelta.playerStats
      (if cur.hp ≠ prev.hp then some cur.hp else none)
      (if cur.maxHp ≠ prev.maxHp then some cur.maxHp else none)
      (if cur.attack ≠ prev.attack then some cur.attack else none)
      (if cur.defense ≠ prev.defense then some cur.defense else none)
      (if cur.xp ≠ prev.xp then some cur.xp else none)
      (if cur.level ≠ prev.level then some cur.level else none)
      (if cur.xpToNextLevel ≠ prev.xpToNextLevel then some cur.xpToNextLevel else none)]
  else []

/-- Lookup in the `prevEnemyPositions` `Map` (later duplicate keys win). -/
def prevEnemyLookup (prevEnemies : List Enemy) (id : String) : Option Enemy :=
  prevEnemies.reverse.find? (fun e => e.id == id)

/-- Newly revealed fog cells, `[x, y]` pairs in row-major order. -/
def fogDiffCells (newFog oldFog : List (List Bool)) : List (Int × Int) :=
  (List.range (height2 newFog)).flatMap fun y =>
    (List.range (width2 newFog)).flatMap fun x =>
      let yi := Int.ofNat y
      let xi := Int.ofNat x
      if fogAt newFog yi xi && !fogAt oldFog yi xi then [(xi, yi)] else []

/-- The three enemy-delta blocks of `processMoveWithDeltas`. -/
def enemyVisibilityDeltas (prevVis prevEnemies : List Enemy) (st' : GameState) :
    List GameDelta :=
  let curVis := getVisibleEnemies st'
  let prevIds := prevVis.map (·.id)
  let curIds := curVis.map (·.id)
  let became := (curVis.filter fun e => !(prevIds.contains e.id)).map GameDelta.enemyVisible
  let left := (prevIds.filter fun pid => !(curIds.contains pid)).map fun pid =>
    match st'.enemies.find? (fun e => e.id == pid) with
    | some e => if e.hp ≤ 0 then GameDelta.enemyKilled pid else GameDelta.enemyHidden pid
    | none => GameDelta.enemyHidden pid
  let stayed := (curVis.filter fun e => prevIds.contains e.id).flatMap fun e =>
    match prevEnemyLookup prevEnemies e.id with
    | some prev =>
      (if e.x ≠ prev.x ∨ e.y ≠ prev.y then [GameDelta.enemyMoved e.id e.x e.y] else [])
        ++ (if e.hp ≠ prev.hp then [GameDelta.enemyDamaged e.id e.hp] else [])
    | none => []
  became ++ left ++ stayed

def itemVisibilityDeltas (prevVisItems : List Item) (st' : GameState) : List GameDelta :=
  let curVisItems := getVisibleItems st'
  let prevIds := prevVisItems.map (·.id)
  (curVisItems.filter fun i => !(prevIds.contains i.id)).map GameDelta.itemVisible

def itemRemovedDeltas (events : List GameEvent) : List GameDelta :=
  events.flatMap fun ev =>
    match eventPickedItemId ev with
    | some iid => [GameDelta.itemRemoved iid]
    | none =>
      match eventEquippedItemId ev with
      | some iid => [GameDelta.itemRemoved iid]
      | none => []

/-- `processMoveWithDeltas`. -/
def processMoveWithDeltas (st : GameState) (direction : Direction) (rng : Rng) (k : Nat) :
    Option (GameState × List GameEvent × List GameDelta) :=
  let prevPlayer := st.player
  let prevScore := st.score
  let prevFog := st.fog
  let prevVisEnemies := getVisibleEnemies st
  let prevVisItems := getVisibleItems st
  let prevEnemies := st.enemies
  match processMove st direction rng k with
  | none => none
  | some (st', events) =>
    let d1 :=
      if st'.player.x ≠ prevPlayer.x ∨ st'.player.y ≠ prevPlayer.y ∨
          st'.player.facingDirection ≠ prevPlayer.facingDirection then
        [GameDelta.playerPos st'.player.x st'.player.y st'.player.facingDirection]
      else []
    let d2 := playerStatsDelta prevPlayer st'.player
    let d3 :=
      if st'.player.equipment ≠ prevPlayer.equipment then
        [GameDelta.playerEquipment st'.player.equipment]
      else []
    let d4 := if st'.score ≠ prevScore then [GameDelta.score st'.score] else []
    let cells := fogDiffCells st'.fog prevFog
    let d5 :=
      if cells.length > 0 then
        [GameDelta.fogReveal cells,
         GameDelta.tilesReveal (cells.flatMap fun c => (lookup2 st'.map c.2 c.1).toList)]
      else []
    let d6 := enemyVisibilityDeltas prevVisEnemies prevEnemies st'
    let d7 := itemVisibilityDeltas prevVisItems st'
    let d8 := itemRemovedDeltas events
    let d9 := if st'.status ≠ .active then [GameDelta.gameStatus st'.status] else []
    let d10 := events.map GameDelta.event
    let d11 :=
      if events.any isFloorDescendedEvent then [GameDelta.newFloor (getVisibleState st')]
      else []
    some (st', events, d1 ++ d2 ++ d3 ++ d4 ++ d5 ++ d6 ++ d7 ++ d8 ++ d9 ++ d10 ++ d11)

/-- `processAttackWithDeltas`.  Note: its enemy block walks *all*
enemies, with no visibility filter. -/
def processAttackWithDeltas (st : GameState) :
    GameState × List GameEvent × List GameDelta :=
  let prevPlayer := st.player
  let prevScore := st.score
  let prevEnemies := st.enemies
  let r := processAttack st
  let st' := r.1
  let events := r.2
  let d1 := playerStatsDelta prevPlayer st'.player
  let d2 := if st'.score ≠ prevScore then [GameDelta.score st'.score] else []
  let d3 := st'.enemies.flatMap fun e =>
    match prevEnemyLookup prevEnemies e.id with
    | none => []
    | some prev =>
      (if e.hp ≠ prev.hp ∧ e.hp > 0 then [GameDelta.enemyDamaged e.id e.hp] else [])
        ++ (if e.hp ≤ 0 ∧ prev.hp > 0 then [GameDelta.enemyKilled e.id] else [])
        ++ (if e.x ≠ prev.x ∨ e.y ≠ prev.y then [GameDelta.enemyMoved e.id e.x e.y] else [])
  let d4 := if st'.status ≠ .active then [GameDelta.gameStatus st'.status] else []
  let d5 := events.map GameDelta.event
  (st', events, d1 ++ d2 ++ d3 ++ d4 ++ d5)

/-! ## Specification predicates -/

/-- The spec's enemy-separation invariant: no two live enemies share a
tile, and no live enemy shares the player's tile. -/
def EnemiesOK (st : GameState) : Prop :=
  st.enemies.Pairwise
    (fun a b => 0 < a.hp → 0 < b.hp → ¬(a.x = b.x ∧ a.y = b.y)) ∧
  ∀ e ∈ st.enemies, 0 < e.hp → ¬(e.x = st.player.x ∧ e.y = st.player.y)

instance (st : GameState) : Decidable (EnemiesOK st) := by
  unfold EnemiesOK; infer_instance

/-- What the enemy-AI pass can and cannot change: each enemy keeps its
id and hp (only positions and memory move), and the player's position,
facing, progression stats, equipment, the map, items, fog, score and
floor are untouched (only the player's hp and the status may change). -/
def AIFrame (a b : GameState) : Prop :=
  (a.enemies.map fun e => (e.id, e.hp)) = (b.enemies.map fun e => (e.id, e.hp)) ∧
  a.player.x = b.player.x ∧ a.player.y = b.player.y ∧
  a.player.facingDirection = b.player.facingDirection ∧
  a.player.xp = b.player.xp ∧ a.player.level = b.player.level ∧
  a.player.xpToNextLevel = b.player.xpToNextLevel ∧
  a.player.maxHp = b.player.maxHp ∧
  a.player.attack = b.player.attack ∧ a.player.defense = b.player.defense ∧
  a.player.equipment = b.player.equipment ∧
  a.map = b.map ∧ a.items = b.items ∧ a.fog = b.fog ∧
  a.score = b.score ∧ a.floor = b.floor

/-- The cell holds a tile that is not a wall. -/
def nonWallAt (map : List (List Tile)) (x y : Int) : Prop :=
  ∃ t, lookup2 map y x = some t ∧ t.type ≠ TileType.wall

/-- A 4-connected path over non-wall tiles. -/
inductive GridPath (map : List (List Tile)) : Coordinate → Coordinate → Prop
  | refl (c : Coordinate) (h : nonWallAt map c.x c.y) : GridPath map c c
  | step (a b c : Coordinate) (hadj : |a.x - b.x| + |a.y - b.y| = 1)
      (ha : nonWallAt map a.x a.y) (hp : GridPath map b c) : GridPath map a c

/-- The bounds every room accepted by the placement loop satisfies. -/
def RoomOK (r : Room) : Prop :=
  1 ≤ r.x ∧ 1 ≤ r.y ∧ 4 ≤ r.width ∧ r.width ≤ 8 ∧ 4 ≤ r.height ∧ r.height ≤ 6 ∧
  r.x + r.width ≤ 38 ∧ r.y + r.height ≤ 22

/-- A rectangular 2D list: `h` rows, each of width `w`. -/
def Rect2 {α : Type} (m : List (List α)) (h w : Nat) : Prop :=
  m.length = h ∧ ∀ row ∈ m, row.length = w

/-- The spec's per-delta fog condition: a delta that references an
enemy or item with coordinates only does so for entities whose cell is
revealed (`fog[y][x] = true`) in the post-turn state `st'`. -/
def DeltaFogOK (st' : GameState) (d : GameDelta) : Prop :=
  (∀ e, d = GameDelta.enemyVisible e → fogAt st'.fog e.y e.x = true) ∧
  (∀ id x y, d = GameDelta.enemyMoved id x y → fogAt st'.fog y x = true) ∧
  (∀ id hp, d = GameDelta.enemyDamaged id hp →
    ∃ e ∈ st'.enemies, e.id = id ∧ 0 < e.hp ∧ fogAt st'.fog e.y e.x = true) ∧
  (∀ it, d = GameDelta.itemVisible it → fogAt st'.fog it.y it.x = true)

/-! ## Concrete fixtures (for counterexamples and witnesses) -/

/-- The all-zeros draw stream: every room attempt is the same 4×4 room
at (1,1), so exactly one room is accepted. -/
def rngZero : Rng := fun _ => 0

/-- A draw stream accepting exactly two rooms — (1,1,4,4) and
(10,1,4,4) — and then seeding every (rat) enemy at cell (10,1) of the
second room. -/
def rngTwoRooms : Rng := fun k => if k = 5 then 9 else 0

def mkRow (w : Nat) (y : Int) (f : Int → TileType) : List Tile :=
  (List.range w).map fun x => { type := f (Int.ofNat x), x := Int.ofNat x, y := y }

def fogNone (h w : Nat) : List (List Bool) :=
  (List.range h).map fun _ => (List.range w).map fun _ => false

def dwarfPlayer : Player :=
  { x := 1, y := 1, hp := 28, maxHp := 28, attack := 6, defense := 3,
    inventory := [], xp := 0, level := 1, xpToNextLevel := 50,
    equipment := ⟨none, none, none, none⟩, character := .dwarf,
    facingDirection := .right }

/-- 5×3, stairs at (2,1), player at (1,1): one step right descends. -/
def stairMap : List (List Tile) :=
  [ mkRow 5 0 (fun _ => .wall),
    mkRow 5 1 (fun x => if x = 0 ∨ x = 4 then .wall else if x = 2 then .stairs else .floor),
    mkRow 5 2 (fun _ => .wall) ]

def stairState : GameState :=
  { playerName := "p", floor := 1, player := dwarfPlayer, map := stairMap,
    enemies := [], items := [],
    fog := (List.range 3).map fun _ => (List.range 5).map fun _ => true,
    status := .active, score := 0 }

/-- The stair-row state with the player already standing on the stairs
cell (2, 1), for the direct-descend part of C6. -/
def stairStandState : GameState :=
  { stairState with player := { dwarfPlayer with x := 2 } }

/-- 12×3 corridor: walls at x = 0 and x = 11 and on rows 0 and 2. -/
def corridorMap : List (List Tile) :=
  [ mkRow 12 0 (fun _ => .wall),
    mkRow 12 1 (fun x => if x = 0 ∨ x = 11 then .wall else .floor),
    mkRow 12 2 (fun _ => .wall) ]

/-- An aggressive enemy at (8,1): Manhattan distance 7 from the player
at (1,1), inside the enemy-activation radius but outside the fog circle. -/
def farEnemy : Enemy :=
  { id := "e", type := .rat, variant := .normal, displayName := "Rat",
    x := 8, y := 1, hp := 6, maxHp := 6, attack := 4, defense := 0,
    behavior := .aggressive, lastSeenPlayer := none }

/-- The corridor state with exactly the fog `updateFog` reveals around
the player at (1,1); the player faces left. -/
def corridorState : GameState :=
  updateFog
    { playerName := "p", floor := 1,
      player := { dwarfPlayer with facingDirection := .left },
      map := corridorMap, enemies := [farEnemy], items := [],
      fog := fogNone 3 12, status := .active, score := 0 }

/-- A rat directly right of the player, for melee/ranged fixtures. -/
def nearRat : Enemy :=
  { id := "r", type := .rat, variant := .normal, displayName := "Rat",
    x := 2, y := 1, hp := 6, maxHp := 6, attack := 4, defense := 0,
    behavior := .stationary, lastSeenPlayer := none }

/-- Corridor with a strong player (attack 10) and the rat adjacent:
one `move right` is a melee attack dealing 10 damage to a 6 hp rat. -/
def meleeState : GameState :=
  { playerName := "p", floor := 1,
    player := { dwarfPlayer with attack := 10 },
    map := corridorMap, enemies := [nearRat], items := [],
    fog := (List.range 3).map fun _ => (List.range 12).map fun _ => true,
    status := .active, score := 0 }

/-- A rat two cells right of the player (the first scan cell is clear). -/
def rangedRat : Enemy :=
  { nearRat with x := 3 }

def rangedHitState : GameState :=
  { meleeState with player := dwarfPlayer, enemies := [rangedRat] }

/-- 6×3 room with a wall at (3,1), two cells right of the player:
a dwarf ranged attack (range 2) stops at the wall. -/
def wallShotMap : List (List Tile) :=
  [ mkRow 6 0 (fun _ => .wall),
    mkRow 6 1 (fun x => if x = 0 ∨ x ≥ 3 then .wall else .floor),
    mkRow 6 2 (fun _ => .wall) ]

def wallShotState : GameState :=
  { playerName := "p", floor := 1, player := dwarfPlayer,
    map := wallShotMap, enemies := [], items := [],
    fog := (List.range 3).map fun _ => (List.range 6).map fun _ => true,
    status := .active, score := 0 }

/-- A champion dragon (xp reward 800) against a level-1 player with
`xpToNextLevel = 10`: one kill grants several levels at once. -/
def championDragon : Enemy :=
  { id := "d", type := .dragon, variant := .champion,
    displayName := "Champion Dragon", x := 2, y := 1,
    hp := -3, maxHp := 112, attack := 36, defense := 12,
    behavior := .aggressive, lastSeenPlayer := none }

def xpState : GameState :=
  { meleeState with
    player := { dwarfPlayer with xpToNextLevel := 10 }, enemies := [championDragon] }

/-- Equipment-swap fixture: a rusty sword equipped, an iron sword found. -/
def rustySword : Equipment := ⟨"rusty_sword", .weapon, "Rusty Sword", 2, 0, 0, 0, 0, 1⟩

def ironSword : Equipment := ⟨"iron_sword", .weapon, "Iron Sword", 4, 0, 0, 0, 0, 3⟩

def ironSwordItem : Item :=
  { id := "it1", type := .equipment, name := "Iron Sword", x := 2, y := 1,
    value := 0, equipment := some ironSword }

def equipState : GameState :=
  { meleeState with
    player := { dwarfPlayer with
      attack := 8, equipment := ⟨some rustySword, none, none, none⟩ },
    enemies := [], items := [ironSwordItem] }

/-- Wall-bump fixture: every direction from (1,1) is blocked. -/
def boxMap : List (List Tile) :=
  [ mkRow 3 0 (fun _ => .wall),
    mkRow 3 1 (fun x => if x = 1 then .floor else .wall),
    mkRow 3 2 (fun _ => .wall) ]

def boxState : GameState :=
  { playerName := "p", floor := 1, player := dwarfPlayer, map := boxMap,
    enemies := [], items := [], fog := fogNone 3 3, status := .active, score := 0 }

/-- Two live enemies at distinct cells for the separation witness. -/
def twoEnemyState : GameState :=
  { meleeState with
    player := dwarfPlayer,
    enemies := [ { nearRat with x := 4 }, { farEnemy with id := "e2" } ] }

/-- The floor the two-room stream generates on descend (floor 2). -/
def gen2 : GenResult :=
  (generateMap rngTwoRooms 0 2 .dwarf).getD ⟨[], ⟨0, 0⟩, [], []⟩

/-! # Theorems -/

set_option maxRecDepth 100000

/-! ## C7: the level-up loop -/

theorem levelLoop_exit_pos (fuel : Nat) :
    ∀ p : Player, 0 < p.xpToNextLevel → p.xp + 1 ≤ fuel →
      (levelLoop fuel p).1.xp < (levelLoop fuel p).1.xpToNextLevel := by
  induction fuel with
  | zero => intro p h1 h2; omega
  | succ n ih =>
    intro p h1 h2
    by_cases hg : p.xpToNextLevel ≤ p.xp
    · have hrw : (levelLoop (n + 1) p).1 = (levelLoop n (levelUpStep p)).1 := by
        simp [levelLoop, hg]
      rw [hrw]
      apply ih
      · simp only [levelUpStep, getXpToNextLevel]
        omega
      · simp only [levelUpStep]
        omega
    · simp only [levelLoop, ge_iff_le, hg, if_false]
      omega

theorem levelLoop_exit (fuel : Nat) (p : Player) (h : p.xp + 2 ≤ fuel) :
    (levelLoop fuel p).1.xp < (levelLoop fuel p).1.xpToNextLevel := by
  match fuel, h with
  | n + 1, h =>
    by_cases hg : p.xpToNextLevel ≤ p.xp
    · have hrw : (levelLoop (n + 1) p).1 = (levelLoop n (levelUpStep p)).1 := by
        simp [levelLoop, hg]
      rw [hrw]
      apply levelLoop_exit_pos
      · simp only [levelUpStep, getXpToNextLevel]
        omega
      · simp only [levelUpStep]
        omega
    · simp only [levelLoop, ge_iff_le, hg, if_false]
      omega

/-- C7: for every enemy kill, the level-up loop after the XP grant
terminates with `xp < xpToNextLevel`, and each iteration subtracts the
old `xpToNextLevel`, increments the level, adds +3 maxHp / +1 attack /
+1 defense, heals `⌊maxHp·0.5⌋` clamped at the new maxHp, recomputes
`xpToNextLevel = level·50`, and emits exactly one `level_up` event. -/
theorem grantXp_level_loop (st : GameState) (enemy : Enemy) :
    ((grantXp st enemy).1.player.xp < (grantXp st enemy).1.player.xpToNextLevel) ∧
    (∀ (fuel : Nat) (p : Player), p.xpToNextLevel ≤ p.xp →
      levelLoop (fuel + 1) p =
        ((levelLoop fuel (levelUpStep p)).1,
          GameEvent.levelUp (p.level + 1) 3 1 1 :: (levelLoop fuel (levelUpStep p)).2)) ∧
    (∀ (fuel : Nat) (p : Player), p.xp < p.xpToNextLevel →
      levelLoop (fuel + 1) p = (p, [])) ∧
    (∀ p : Player, levelUpStep p =
      { p with xp := p.xp - p.xpToNextLevel, level := p.level + 1,
               maxHp := p.maxHp + 3,
               hp := min (p.maxHp + 3) (p.hp + (p.maxHp + 3).fdiv 2),
               attack := p.attack + 1, defense := p.defense + 1,
               xpToNextLevel := (p.level + 1) * 50 }) := by
  refine ⟨?_, ?_, ?_, ?_⟩
  · simp only [grantXp]
    exact levelLoop_exit _ _ (le_refl _)
  · intro fuel p hg
    simp [levelLoop, hg, levelUpStep]
  · intro fuel p hg
    simp [levelLoop, Nat.not_le.mpr hg]
  · intro p
    simp [levelUpStep, getXpToNextLevel]

/-- C7 witness: a champion dragon kill against a level-1 player with
`xpToNextLevel = 10` terminates the loop with the invariant restored,
and a single-level example iterates exactly once. -/
theorem grantXp_level_loop_witness :
    ((grantXp xpState championDragon).1.player.xp <
      (grantXp xpState championDragon).1.player.xpToNextLevel) ∧
    levelLoop 1 { dwarfPlayer with xp := 60 } =
      ((levelLoop 0 (levelUpStep { dwarfPlayer with xp := 60 })).1,
        GameEvent.levelUp (dwarfPlayer.level + 1) 3 1 1 ::
          (levelLoop 0 (levelUpStep { dwarfPlayer with xp := 60 })).2) :=
  ⟨(grantXp_level_loop xpState championDragon).1,
    (grantXp_level_loop xpState championDragon).2.1 0 _ (by decide)⟩

/-! ## C8: blocked moves are no-ops -/

/-- C8: in an active game, a move whose target cell is out of bounds or
a wall returns no events and leaves the state untouched (no fog update,
no enemy AI). -/
theorem processMove_blocked_noop (st : GameState) (dir : Direction) (rng : Rng) (k : Nat)
    (hactive : st.status = .active)
    (hblocked :
      (st.player.y + (directionDelta dir).2 < 0 ∨
        st.player.y + (directionDelta dir).2 ≥ (height2 st.map : Int) ∨
        st.player.x + (directionDelta dir).1 < 0 ∨
        st.player.x + (directionDelta dir).1 ≥ (width2 st.map : Int)) ∨
      isWallCell st.map (st.player.y + (directionDelta dir).2)
        (st.player.x + (directionDelta dir).1) = true) :
    processMove st dir rng k = some (st, []) := by
  unfold processMove
  simp only [hactive, ne_eq, not_true_eq_false, if_false, ite_false, reduceIte]
  rcases hblocked with h | h
  · rw [if_pos h]
  · split
    · rfl
    · simp [h]

/-- C8 witness: bumping the wall above the player changes nothing. -/
theorem processMove_blocked_noop_witness :
    processMove boxState .up rngZero 0 = some (boxState, []) :=
  processMove_blocked_noop boxState .up rngZero 0 (by decide) (by decide)

/-! ## C9: missing two-room assertion in the generator -/

/-- C9 failing input: on the all-zeros draw stream the room loop accepts
exactly one room, and `generateMap` still assigns both the stairs cell
and `playerStart` from it (the same cell), with no assertion and no
restart. -/
theorem generateMap_single_room_assigns_stairs :
    genRoomsLoop rngZero 5 100 1 [] = ([⟨1, 1, 4, 4⟩], 401) ∧
    (generateMap rngZero 0 1 .dwarf).map
        (fun g => (g.playerStart, tileTypeAt g.map 3 3)) =
      some (⟨3, 3⟩, some .stairs) := by
  constructor
  · decide
  · decide

/-! ## C10: equipment auto-swap arithmetic -/

/-- C10: the auto-equip decision compares the five-bonus sum; equipping
adjusts only attack/defense/maxHp by subtracting the old equipment's
attack/defense/hp bonuses and adding the new ones (the two ranged
bonuses never enter), and hp is only ever clamped down to the new
maxHp, never increased. -/
theorem handleEquipmentPickup_spec (st : GameState) (item : Item) (eq : Equipment)
    (idx : Nat) :
    (getEquipmentTotalBonus eq =
      eq.attackBonus + eq.defenseBonus + eq.hpBonus +
        eq.rangedDamageBonus + eq.rangedRangeBonus) ∧
    (∀ c, getSlot st.player.equipment eq.slot = some c →
      ¬ getEquipmentTotalBonus c < getEquipmentTotalBonus eq →
      handleEquipmentPickup st item eq idx = (st, [GameEvent.equipmentFound eq true])) ∧
    ((getSlot st.player.equipment eq.slot = none ∨
      (∃ c, getSlot st.player.equipment eq.slot = some c ∧
        getEquipmentTotalBonus c < getEquipmentTotalBonus eq)) →
      ((handleEquipmentPickup st item eq idx).1.player.attack =
          st.player.attack -
            (match getSlot st.player.equipment eq.slot with
             | some c => c.attackBonus
             | none => 0) + eq.attackBonus) ∧
      ((handleEquipmentPickup st item eq idx).1.player.defense =
          st.player.defense -
            (match getSlot st.player.equipment eq.slot with
             | some c => c.defenseBonus
             | none => 0) + eq.defenseBonus) ∧
      ((handleEquipmentPickup st item eq idx).1.player.maxHp =
          st.player.maxHp -
            (match getSlot st.player.equipment eq.slot with
             | some c => c.hpBonus
             | none => 0) + eq.hpBonus) ∧
      ((handleEquipmentPickup st item eq idx).1.player.hp =
          min st.player.hp (handleEquipmentPickup st item eq idx).1.player.maxHp) ∧
      ((handleEquipmentPickup st item eq idx).1.player.hp ≤ st.player.hp) ∧
      ((handleEquipmentPickup st item eq idx).1.player.xp = st.player.xp) ∧
      ((handleEquipmentPickup st item eq idx).1.player.x = st.player.x) ∧
      ((handleEquipmentPickup st item eq idx).1.player.y = st.player.y) ∧
      ((handleEquipmentPickup st item eq idx).1.player.equipment =
          setSlot st.player.equipment eq.slot eq) ∧
      ((handleEquipmentPickup st item eq idx).1.items = st.items.eraseIdx idx) ∧
      (handleEquipmentPickup st item eq idx).2 =
        [GameEvent.equipmentEquipped item.id eq eq.slot]) := by
  refine ⟨by simp [getEquipmentTotalBonus], ?_, ?_⟩
  · intro c hc hnb
    simp only [handleEquipmentPickup, hc]
    rw [if_neg]
    push_neg
    constructor
    · omega
    · simp
  · intro hbetter
    rcases hbetter with hnone | ⟨c, hc, hlt⟩
    · simp only [handleEquipmentPickup, hnone]
      rw [if_pos (Or.inr trivial)]
      refine ⟨?_, ?_, ?_, ?_, ?_, ?_, ?_, ?_, ?_, ?_, ?_⟩ <;>
        first
          | rfl
          | (split <;> simp <;> omega)
    · simp only [handleEquipmentPickup, hc]
      rw [if_pos (Or.inl hlt)]
      refine ⟨?_, ?_, ?_, ?_, ?_, ?_, ?_, ?_, ?_, ?_, ?_⟩ <;>
        first
          | rfl
          | (split <;> simp <;> omega)

/-- C10 witness: swapping a rusty sword (sum 2) for an iron sword
(sum 4) adds the difference to attack only. -/
theorem handleEquipmentPickup_spec_witness :
    (handleEquipmentPickup equipState ironSwordItem ironSword 0).1.player.attack =
      equipState.player.attack -
        (match getSlot equipState.player.equipment ironSword.slot with
         | some c => c.attackBonus
         | none => 0) + ironSword.attackBonus :=
  ((handleEquipmentPickup_spec equipState ironSwordItem ironSword 0).2.2
    (Or.inr ⟨rustySword, by decide, by decide⟩)).1

/-! ## Frame lemmas for the enemy-AI pass -/

theorem map_set_congr {α β : Type} (f : α → β) :
    ∀ (l : List α) (i : Nat) (a b : α), l.get? i = some b → f a = f b →
      (l.set i a).map f = l.map f := by
  intro l
  induction l with
  | nil => intro i a b h _; simp at h
  | cons x xs ih =>
    intro i a b h hf
    cases i with
    | zero =>
      simp only [List.get?] at h
      cases h
      simp [List.set, hf]
    | succ n =>
      simp only [List.get?] at h
      simp [List.set, ih n a b h hf]

theorem get?_set_self {α : Type} :
    ∀ (l : List α) (i : Nat) (a : α), i < l.length → (l.set i a).get? i = some a := by
  intro l
  induction l with
  | nil => intro i a h; simp at h
  | cons x xs ih =>
    intro i a h
    cases i with
    | zero => rfl
    | succ n =>
      simp only [List.set, List.get?]
      exact ih n a (by simpa using h)

theorem get?_lt_length {α : Type} {l : List α} {i : Nat} {a : α}
    (h : l.get? i = some a) : i < l.length := by
  by_contra hcon
  rw [List.get?_eq_none.mpr (by omega)] at h
  exact Option.noConfusion h

theorem AIFrame_refl (a : GameState) : AIFrame a a := by
  unfold AIFrame; tauto

theorem AIFrame_trans {a b c : GameState} (h1 : AIFrame a b) (h2 : AIFrame b c) :
    AIFrame a c := by
  unfold AIFrame at h1 h2 ⊢
  obtain ⟨e1, r1⟩ := h1
  obtain ⟨e2, r2⟩ := h2
  refine ⟨e1.trans e2, ?_⟩
  simp_all

theorem setEnemy_AIFrame (st : GameState) (i : Nat) (e e' : Enemy)
    (h : st.enemies.get? i = some e) (hid : e'.id = e.id) (hhp : e'.hp = e.hp) :
    AIFrame (setEnemy st i e') st := by
  unfold AIFrame setEnemy
  refine ⟨?_, by simp⟩
  exact map_set_congr _ _ _ _ _ h (by simp [hid, hhp])

theorem enemyAttackPlayer_AIFrame (st : GameState) (e : Enemy) :
    AIFrame (enemyAttackPlayer st e).1 st := by
  unfold enemyAttackPlayer AIFrame
  dsimp only
  split <;> simp

theorem aggressiveCore_AIFrame (st1 : GameState) (e1 : Enemy) (idx : Nat)
    (canSee : Bool) (pc : Nat) (px py : Int)
    (h : st1.enemies.get? idx = some e1) :
    AIFrame (aggressiveCore st1 e1 idx canSee pc px py).state st1 := by
  unfold aggressiveCore
  dsimp only
  split
  · exact AIFrame_refl _
  · split
    · exact enemyAttackPlayer_AIFrame _ _
    · split
      · split
        · exact enemyAttackPlayer_AIFrame _ _
        · split
          · split
            · exact AIFrame_trans (enemyAttackPlayer_AIFrame _ _)
                (setEnemy_AIFrame st1 idx e1 _ h rfl rfl)
            · exact setEnemy_AIFrame st1 idx e1 _ h rfl rfl
          · exact AIFrame_refl _
      · split
        · split
          · exact setEnemy_AIFrame st1 idx e1 _ h rfl rfl
          · exact AIFrame_refl _
        · exact AIFrame_refl _

theorem enemyDispatch_AIFrame (st1 : GameState) (e1 : Enemy) (idx : Nat)
    (canSee : Bool) (pc : Nat) (px py : Int)
    (h : st1.enemies.get? idx = some e1) :
    AIFrame (enemyDispatch st1 e1 idx canSee pc px py).state st1 := by
  unfold enemyDispatch
  split
  · dsimp only
    split
    · repeat' split
      all_goals
        first
          | exact setEnemy_AIFrame st1 idx e1 _ h rfl rfl
          | exact AIFrame_refl _
    · exact aggressiveCore_AIFrame _ _ _ _ _ _ _ h
  · exact aggressiveCore_AIFrame _ _ _ _ _ _ _ h
  · dsimp only
    split
    · split
      · exact enemyAttackPlayer_AIFrame _ _
      · split
        · split
          · split
            · exact AIFrame_trans (enemyAttackPlayer_AIFrame _ _)
                (setEnemy_AIFrame st1 idx e1 _ h rfl rfl)
            · exact setEnemy_AIFrame st1 idx e1 _ h rfl rfl
          · exact AIFrame_refl _
        · exact AIFrame_refl _
    · exact AIFrame_refl _
  · split
    · exact enemyAttackPlayer_AIFrame _ _
    · exact AIFrame_refl _

theorem enemyStep_AIFrame (st : GameState) (px py : Int) (idx : Nat) (dist : Int)
    (pc : Nat) : AIFrame (enemyStep st px py idx dist pc).state st := by
  unfold enemyStep
  split
  · exact AIFrame_refl _
  · rename_i e0 hget
    split
    · exact AIFrame_refl _
    · have hlt : idx < st.enemies.length := get?_lt_length hget
      dsimp only
      cases hcs : hasLineOfSight st e0.x e0.y px py <;>
        simp only [hcs, if_true, if_false, Bool.false_eq_true, reduceIte]
      · exact AIFrame_trans
          (enemyDispatch_AIFrame _ _ idx _ pc px py (get?_set_self _ _ _ hlt))
          (setEnemy_AIFrame st idx e0 _ hget rfl rfl)
      · exact AIFrame_trans
          (enemyDispatch_AIFrame _ _ idx _ pc px py (get?_set_self _ _ _ hlt))
          (setEnemy_AIFrame st idx e0 _ hget rfl rfl)

theorem moveEnemiesGo_AIFrame (px py : Int) :
    ∀ (l : List (Nat × Int)) (st : GameState) (evs : List GameEvent) (pc : Nat),
      AIFrame (moveEnemiesGo px py l st evs pc).1 st := by
  intro l
  induction l with
  | nil => intro st evs pc; exact AIFrame_refl _
  | cons hd tl ih =>
    intro st evs pc
    obtain ⟨idx, dist⟩ := hd
    simp only [moveEnemiesGo]
    split
    · exact enemyStep_AIFrame st px py idx dist pc
    · exact AIFrame_trans (ih _ _ _) (enemyStep_AIFrame st px py idx dist pc)

theorem moveEnemies_AIFrame (st : GameState) : AIFrame (moveEnemies st).1 st := by
  unfold moveEnemies
  exact moveEnemiesGo_AIFrame _ _ _ _ _ _

/-! ## C4: melee attack when moving into a live enemy -/

theorem enum_find?_get? {α : Type} {l : List α} {p : Nat × α → Bool} {i : Nat} {a : α}
    (h : l.enum.find? p = some (i, a)) : l.get? i = some a := by
  have hm := List.mem_of_find?_eq_some h
  rw [List.mk_mem_enum_iff_getElem?] at hm
  rw [List.get?_eq_getElem?]
  exact hm

theorem updateFacing_enemies (st : GameState) (dir : Direction) :
    (updateFacing st dir).enemies = st.enemies := by cases dir <;> rfl

theorem updateFacing_px (st : GameState) (dir : Direction) :
    (updateFacing st dir).player.x = st.player.x := by cases dir <;> rfl

theorem updateFacing_py (st : GameState) (dir : Direction) :
    (updateFacing st dir).player.y = st.player.y := by cases dir <;> rfl

theorem updateFacing_attack (st : GameState) (dir : Direction) :
    (updateFacing st dir).player.attack = st.player.attack := by cases dir <;> rfl

theorem updateFacing_status (st : GameState) (dir : Direction) :
    (updateFacing st dir).status = st.status := by cases dir <;> rfl

theorem updateFacing_map (st : GameState) (dir : Direction) :
    (updateFacing st dir).map = st.map := by cases dir <;> rfl

theorem updateFacing_facing (st : GameState) (dir : Direction) :
    (updateFacing st dir).player.facingDirection =
      (match dir with
       | .left => FacingDirection.left
       | .right => FacingDirection.right
       | _ => st.player.facingDirection) := by cases dir <;> rfl

theorem levelLoop_pos (fuel : Nat) :
    ∀ p : Player, (levelLoop fuel p).1.x = p.x ∧ (levelLoop fuel p).1.y = p.y ∧
      (levelLoop fuel p).1.facingDirection = p.facingDirection := by
  induction fuel with
  | zero => intro p; exact ⟨rfl, rfl, rfl⟩
  | succ n ih =>
    intro p
    by_cases h : p.xpToNextLevel ≤ p.xp
    · simp only [levelLoop, ge_iff_le, h, if_true]
      exact ih (levelUpStep p)
    · simp [levelLoop, h]

theorem grantXp_frame (st : GameState) (e : Enemy) :
    (grantXp st e).1.enemies = st.enemies ∧
    (grantXp st e).1.player.x = st.player.x ∧
    (grantXp st e).1.player.y = st.player.y ∧
    (grantXp st e).1.player.facingDirection = st.player.facingDirection ∧
    (grantXp st e).1.map = st.map ∧
    (grantXp st e).1.status = st.status := by
  unfold grantXp
  obtain ⟨a, b, c⟩ := levelLoop_pos
    (({ st.player with xp := st.player.xp + getEnemyXpReward e } : Player).xp + 2)
    { st.player with xp := st.player.xp + getEnemyXpReward e }
  exact ⟨rfl, a, b, c, rfl, rfl⟩

theorem attackEnemy_spec (st1 : GameState) (idx : Nat) (e : Enemy)
    (h : st1.enemies.get? idx = some e) :
    ((attackEnemy st1 idx).1.enemies.map fun en => (en.id, en.hp)) =
      (st1.enemies.map fun en => (en.id, en.hp)).set idx
        (e.id, e.hp - max 1 (st1.player.attack - e.defense)) ∧
    (attackEnemy st1 idx).1.player.x = st1.player.x ∧
    (attackEnemy st1 idx).1.player.y = st1.player.y ∧
    (attackEnemy st1 idx).1.player.facingDirection = st1.player.facingDirection ∧
    (attackEnemy st1 idx).1.map = st1.map ∧
    (attackEnemy st1 idx).1.status = st1.status ∧
    (attackEnemy st1 idx).2.head? =
      some (GameEvent.playerAttacked e.x e.y
        (max 1 (st1.player.attack - e.defense)) e.id) ∧
    (e.hp - max 1 (st1.player.attack - e.defense) ≤ 0 →
      GameEvent.enemyKilled e.id e.type ∈ (attackEnemy st1 idx).2) := by
  unfold attackEnemy
  rw [h]
  dsimp only
  split
  · rename_i hkill
    obtain ⟨ge, gx, gy, gf, gm, gs⟩ := grantXp_frame
      { setEnemy st1 idx { e with hp := e.hp - max 1 (st1.player.attack - e.defense) } with
        score := (setEnemy st1 idx
          { e with hp := e.hp - max 1 (st1.player.attack - e.defense) }).score +
            getEnemyScore e.type }
      { e with hp := e.hp - max 1 (st1.player.attack - e.defense) }
    refine ⟨?_, ?_, ?_, ?_, ?_, ?_, rfl, fun _ => by simp⟩
    · rw [ge]
      simp [setEnemy, List.map_set]
    · exact gx
    · exact gy
    · exact gf
    · exact gm
    · exact gs
  · refine ⟨?_, rfl, rfl, rfl, rfl, rfl, rfl, fun habs => absurd habs (by omega)⟩
    simp [setEnemy, List.map_set]

theorem finishTurn_spec (st : GameState) (evs : List GameEvent) :
    ((finishTurn st evs).1.enemies.map fun e => (e.id, e.hp)) =
      (st.enemies.map fun e => (e.id, e.hp)) ∧
    (finishTurn st evs).1.player.x = st.player.x ∧
    (finishTurn st evs).1.player.y = st.player.y ∧
    (finishTurn st evs).1.player.facingDirection = st.player.facingDirection ∧
    (finishTurn st evs).1.map = st.map ∧
    (∃ tail, (finishTurn st evs).2 = evs ++ tail) := by
  unfold finishTurn
  dsimp only
  split
  · obtain ⟨he, hx, hy, hf, _⟩ := moveEnemies_AIFrame (updateFog st)
    exact ⟨he, hx, hy, hf, (moveEnemies_AIFrame (updateFog st)).2.2.2.2.2.2.2.2.2.2.2.1,
      ⟨(moveEnemies (updateFog st)).2, rfl⟩⟩
  · exact ⟨rfl, rfl, rfl, rfl, rfl, ⟨[], (List.append_nil evs).symm⟩⟩

/-- C4 (amended): when a move in an active game targets an in-bounds
non-wall tile occupied by the first live enemy `e` (index `idx`), the
player attacks instead of moving: the position is unchanged, `e` loses
exactly `max(1, playerAttack − enemyDefense)` hp (which may drive hp
negative — it is not clamped), every other enemy's hp is unchanged,
facing changes only on left/right intents, a `player_attacked` event
with that damage leads the event list, and if the new hp is ≤ 0 the
enemy is killed (an `enemy_killed` event is emitted). -/
theorem processMove_melee (st : GameState) (dir : Direction) (rng : Rng) (k : Nat)
    (idx : Nat) (e : Enemy)
    (hactive : st.status = .active)
    (hin : ¬(st.player.y + (directionDelta dir).2 < 0 ∨
        st.player.y + (directionDelta dir).2 ≥ (height2 st.map : Int) ∨
        st.player.x + (directionDelta dir).1 < 0 ∨
        st.player.x + (directionDelta dir).1 ≥ (width2 st.map : Int)))
    (hwall : isWallCell st.map (st.player.y + (directionDelta dir).2)
        (st.player.x + (directionDelta dir).1) = false)
    (hfind : st.enemies.enum.find?
        (fun p => p.2.x == st.player.x + (directionDelta dir).1 &&
          p.2.y == st.player.y + (directionDelta dir).2 && decide (0 < p.2.hp)) =
      some (idx, e)) :
    ∃ st' evs, processMove st dir rng k = some (st', evs) ∧
      st'.player.x = st.player.x ∧ st'.player.y = st.player.y ∧
      (st'.enemies.map fun en => (en.id, en.hp)) =
        (st.enemies.map fun en => (en.id, en.hp)).set idx
          (e.id, e.hp - max 1 (st.player.attack - e.defense)) ∧
      st'.player.facingDirection =
        (match dir with
         | .left => FacingDirection.left
         | .right => FacingDirection.right
         | _ => st.player.facingDirection) ∧
      evs.head? = some (GameEvent.playerAttacked e.x e.y
        (max 1 (st.player.attack - e.defense)) e.id) ∧
      (e.hp - max 1 (st.player.attack - e.defense) ≤ 0 →
        GameEvent.enemyKilled e.id e.type ∈ evs) := by
  have hget : (updateFacing st dir).enemies.get? idx = some e := by
    rw [updateFacing_enemies]; exact enum_find?_get? hfind
  have hA := attackEnemy_spec (updateFacing st dir) idx e hget
  have hF := finishTurn_spec (attackEnemy (updateFacing st dir) idx).1
    (attackEnemy (updateFacing st dir) idx).2
  unfold processMove
  simp only [hactive, ne_eq, not_true_eq_false, if_false, ite_false, reduceIte]
  rw [if_neg hin, if_neg (by simp [hwall]), hfind]
  refine ⟨(finishTurn (attackEnemy (updateFacing st dir) idx).1
      (attackEnemy (updateFacing st dir) idx).2).1,
    (finishTurn (attackEnemy (updateFacing st dir) idx).1
      (attackEnemy (updateFacing st dir) idx).2).2, rfl, ?_, ?_, ?_, ?_, ?_, ?_⟩
  · rw [hF.2.1, hA.2.1, updateFacing_px]
  · rw [hF.2.2.1, hA.2.2.1, updateFacing_py]
  · rw [hF.1, hA.1, updateFacing_enemies, updateFacing_attack]
  · rw [hF.2.2.2.1, hA.2.2.2.1, updateFacing_facing]
  · obtain ⟨tail, htail⟩ := hF.2.2.2.2.2
    rw [htail]
    rw [updateFacing_attack] at hA
    rcases hhead : (attackEnemy (updateFacing st dir) idx).2 with _ | ⟨ev, rest⟩
    · rw [hhead] at hA
      exact absurd hA.2.2.2.2.2.2.1 (by simp)
    · rw [hhead] at hA
      simpa using hA.2.2.2.2.2.2.1
  · intro hdead
    obtain ⟨tail, htail⟩ := hF.2.2.2.2.2
    rw [htail]
    rw [updateFacing_attack] at hA
    exact List.mem_append_left _ (hA.2.2.2.2.2.2.2 hdead)

/-- C4 counterexample to the claim as stated: a 10-attack player melee
attacking a 6 hp, 0 defense rat leaves the rat at hp = −4 < 0 in the
server state — enemy hp is *not* clamped at 0. -/
theorem processMove_melee_counterexample :
    (processMove meleeState .right rngZero 0).map
        (fun r => r.1.enemies.map Enemy.hp) = some [-4] ∧
    ¬ (0 : Int) ≤ -4 := by
  constructor
  · decide
  · decide

/-! ## C5: the ranged-attack scan -/

theorem rangedScanGo_enemy (st : GameState) (dx px py : Int) (m : Nat)
    (j : Nat) (en : Enemy)
    (hin : 0 ≤ px + dx * m ∧ px + dx * m < (width2 st.map : Int))
    (hnw : isWallCell st.map py (px + dx * m) = false)
    (hfind : st.enemies.enum.find?
        (fun p => p.2.x == px + dx * m && p.2.y == py && decide (0 < p.2.hp)) =
      some (j, en))
    (hclear : ∀ t : Nat, 1 ≤ t → t < m →
      (0 ≤ px + dx * t ∧ px + dx * t < (width2 st.map : Int)) ∧
      isWallCell st.map py (px + dx * t) = false ∧
      st.enemies.enum.find?
          (fun p => p.2.x == px + dx * t && p.2.y == py && decide (0 < p.2.hp)) =
        none) :
    ∀ (rem i : Nat) (hxy : Int × Int), 1 ≤ i → i ≤ m → m < i + rem →
      rangedScanGo st dx px py rem i hxy = (some (j, en), px + dx * m, py) := by
  intro rem
  induction rem with
  | zero => intro i hxy h1 h2 h3; omega
  | succ n ih =>
    intro i hxy h1 h2 h3
    rcases eq_or_lt_of_le h2 with heq | hlt
    · subst heq
      simp only [rangedScanGo]
      rw [if_neg (by push_neg; omega), if_neg (by simp [hnw]), hfind]
    · obtain ⟨hb, hw, hf⟩ := hclear i h1 hlt
      simp only [rangedScanGo]
      rw [if_neg (by push_neg; omega), if_neg (by simp [hw]), hf]
      exact ih (i + 1) (px + dx * i, py) (by omega) (by omega) (by omega)

theorem rangedScanGo_wall (st : GameState) (dx px py : Int) (m : Nat)
    (hin : 0 ≤ px + dx * m ∧ px + dx * m < (width2 st.map : Int))
    (hw : isWallCell st.map py (px + dx * m) = true)
    (hclear : ∀ t : Nat, 1 ≤ t → t < m →
      (0 ≤ px + dx * t ∧ px + dx * t < (width2 st.map : Int)) ∧
      isWallCell st.map py (px + dx * t) = false ∧
      st.enemies.enum.find?
          (fun p => p.2.x == px + dx * t && p.2.y == py && decide (0 < p.2.hp)) =
        none) :
    ∀ (rem i : Nat) (hxy : Int × Int), 1 ≤ i → i ≤ m → m < i + rem →
      rangedScanGo st dx px py rem i hxy = (none, px + dx * m, py) := by
  intro rem
  induction rem with
  | zero => intro i hxy h1 h2 h3; omega
  | succ n ih =>
    intro i hxy h1 h2 h3
    rcases eq_or_lt_of_le h2 with heq | hlt
    · subst heq
      simp only [rangedScanGo]
      rw [if_neg (by push_neg; omega), if_pos hw]
    · obtain ⟨hb, hwf, hf⟩ := hclear i h1 hlt
      simp only [rangedScanGo]
      rw [if_neg (by push_neg; omega), if_neg (by simp [hwf]), hf]
      exact ih (i + 1) (px + dx * i, py) (by omega) (by omega) (by omega)

/-- C5: a ranged attack scans `(px + dx·i, py)` for `i = 1..range` and
stops at the first live enemy or the first wall.  Hitting the first
live enemy `en` (at distance `m`, the earlier cells being in-bounds,
non-wall and enemy-free) deals it exactly
`max(1, rangedDamage − defense)` damage, leaves every other enemy's hp
unchanged, and emits `ranged_attack`; when the cell at distance `m` is
the first wall, no enemy takes damage and `ranged_missed` is emitted
with `targetX/targetY` at the wall cell and damage 0. -/
theorem processAttack_scan_spec (st : GameState) (m : Nat)
    (hactive : st.status = .active) (hm1 : 1 ≤ m)
    (hmr : (m : Int) ≤ (CHARACTER_STATS st.player.character).rangedRange +
      (match getSlot st.player.equipment .ranged with
       | some e => e.rangedRangeBonus
       | none => 0))
    (hclear : ∀ t ∈ List.range m, 1 ≤ t →
      (0 ≤ st.player.x + (if st.player.facingDirection = .right then (1 : Int) else -1) * t ∧
        st.player.x + (if st.player.facingDirection = .right then (1 : Int) else -1) * t <
          (width2 st.map : Int)) ∧
      isWallCell st.map st.player.y
        (st.player.x + (if st.player.facingDirection = .right then (1 : Int) else -1) * t) = false ∧
      st.enemies.enum.find?
          (fun p => p.2.x ==
              st.player.x + (if st.player.facingDirection = .right then (1 : Int) else -1) * t &&
            p.2.y == st.player.y && decide (0 < p.2.hp)) =
        none) :
    (∀ (j : Nat) (en : Enemy),
      (0 ≤ st.player.x + (if st.player.facingDirection = .right then (1 : Int) else -1) * m ∧
        st.player.x + (if st.player.facingDirection = .right then (1 : Int) else -1) * m <
          (width2 st.map : Int)) →
      isWallCell st.map st.player.y
        (st.player.x + (if st.player.facingDirection = .right then (1 : Int) else -1) * m) = false →
      st.enemies.enum.find?
          (fun p => p.2.x ==
              st.player.x + (if st.player.facingDirection = .right then (1 : Int) else -1) * m &&
            p.2.y == st.player.y && decide (0 < p.2.hp)) =
        some (j, en) →
      ((processAttack st).1.enemies.map fun e => (e.id, e.hp)) =
        (st.enemies.map fun e => (e.id, e.hp)).set j
          (en.id, en.hp - max 1 ((CHARACTER_STATS st.player.character).rangedDamage +
            (match getSlot st.player.equipment .ranged with
             | some e => e.rangedDamageBonus
             | none => 0) - en.defense)) ∧
      (processAttack st).2.head? =
        some (GameEvent.rangedAttack
          (st.player.x + (if st.player.facingDirection = .right then (1 : Int) else -1) * m)
          st.player.y
          (max 1 ((CHARACTER_STATS st.player.character).rangedDamage +
            (match getSlot st.player.equipment .ranged with
             | some e => e.rangedDamageBonus
             | none => 0) - en.defense))
          (some en.id) (getAttackType st.player.character))) ∧
    ((0 ≤ st.player.x + (if st.player.facingDirection = .right then (1 : Int) else -1) * m ∧
        st.player.x + (if st.player.facingDirection = .right then (1 : Int) else -1) * m <
          (width2 st.map : Int)) →
      isWallCell st.map st.player.y
        (st.player.x + (if st.player.facingDirection = .right then (1 : Int) else -1) * m) = true →
      ((processAttack st).1.enemies.map fun e => (e.id, e.hp)) =
        (st.enemies.map fun e => (e.id, e.hp)) ∧
      (processAttack st).2.head? =
        some (GameEvent.rangedMissed
          (st.player.x + (if st.player.facingDirection = .right then (1 : Int) else -1) * m)
          st.player.y 0 none (getAttackType st.player.character))) := by
  have hclear' : ∀ t : Nat, 1 ≤ t → t < m →
      (0 ≤ st.player.x + (if st.player.facingDirection = .right then (1 : Int) else -1) * t ∧
        st.player.x + (if st.player.facingDirection = .right then (1 : Int) else -1) * t <
          (width2 st.map : Int)) ∧
      isWallCell st.map st.player.y
        (st.player.x + (if st.player.facingDirection = .right then (1 : Int) else -1) * t) = false ∧
      st.enemies.enum.find?
          (fun p => p.2.x ==
              st.player.x + (if st.player.facingDirection = .right then (1 : Int) else -1) * t &&
            p.2.y == st.player.y && decide (0 < p.2.hp)) =
        none :=
    fun t h1 h2 => hclear t (List.mem_range.mpr h2) h1
  have hrange : m < 1 + ((CHARACTER_STATS st.player.character).rangedRange +
      (match getSlot st.player.equipment .ranged with
       | some e => e.rangedRangeBonus
       | none => 0)).toNat := by
    omega
  constructor
  · intro j en hin hnw hfind
    have hscan := rangedScanGo_enemy st
      (if st.player.facingDirection = .right then (1 : Int) else -1)
      st.player.x st.player.y m j en hin hnw hfind hclear'
      ((CHARACTER_STATS st.player.character).rangedRange +
        (match getSlot st.player.equipment .ranged with
         | some e => e.rangedRangeBonus
         | none => 0)).toNat 1 (st.player.x, st.player.y) (le_refl 1) hm1 hrange
    have hget : st.enemies.get? j = some en := enum_find?_get? hfind
    simp only [Nat.cast_one] at hscan
    unfold processAttack
    simp only [hactive, ne_eq, not_true_eq_false, if_false, ite_false, reduceIte]
    rw [hscan]
    dsimp only
    set damage := max 1 ((CHARACTER_STATS st.player.character).rangedDamage +
      (match getSlot st.player.equipment .ranged with
       | some e => e.rangedDamageBonus
       | none => 0) - en.defense) with hdmg
    constructor
    · split
      · rename_i hkill
        have hAI := moveEnemies_AIFrame ((grantXp { setEnemy st j { en with hp := en.hp - damage } with
            score := (setEnemy st j { en with hp := en.hp - damage }).score +
              getEnemyScore en.type } { en with hp := en.hp - damage }).1)
        have hGX := grantXp_frame { setEnemy st j { en with hp := en.hp - damage } with
            score := (setEnemy st j { en with hp := en.hp - damage }).score +
              getEnemyScore en.type } { en with hp := en.hp - damage }
        split
        · rw [hAI.1, hGX.1]
          simp [setEnemy, List.map_set]
        · rw [hGX.1]
          simp [setEnemy, List.map_set]
      · split
        · rw [(moveEnemies_AIFrame (setEnemy st j { en with hp := en.hp - damage })).1]
          simp [setEnemy, List.map_set]
        · simp [setEnemy, List.map_set]
    · rfl
  · intro hin hw
    have hscan := rangedScanGo_wall st
      (if st.player.facingDirection = .right then (1 : Int) else -1)
      st.player.x st.player.y m hin hw hclear'
      ((CHARACTER_STATS st.player.character).rangedRange +
        (match getSlot st.player.equipment .ranged with
         | some e => e.rangedRangeBonus
         | none => 0)).toNat 1 (st.player.x, st.player.y) (le_refl 1) hm1 hrange
    simp only [Nat.cast_one] at hscan
    unfold processAttack
    simp only [hactive, ne_eq, not_true_eq_false, if_false, ite_false, reduceIte]
    rw [hscan]
    dsimp only
    exact ⟨(moveEnemies_AIFrame st).1, rfl⟩

/-- C5 witness: a dwarf (range 2, damage 3) hits a rat two cells right
for 3 damage, and against a wall two cells right emits `ranged_missed`
at the wall cell with damage 0. -/
theorem processAttack_scan_spec_witness :
    ((processAttack rangedHitState).1.enemies.map fun e => (e.id, e.hp)) = [("r", 3)] ∧
    (processAttack rangedHitState).2.head? =
      some (GameEvent.rangedAttack 3 1 3 (some "r") AttackType.dagger) ∧
    ((processAttack wallShotState).1.enemies.map fun e => (e.id, e.hp)) = [] ∧
    (processAttack wallShotState).2.head? =
      some (GameEvent.rangedMissed 3 1 0 none AttackType.dagger) := by
  have h1 := (processAttack_scan_spec rangedHitState 2 (by decide) (by decide)
    (by decide) (by decide)).1 0 rangedRat (by decide) (by decide) (by decide)
  have h2 := (processAttack_scan_spec wallShotState 2 (by decide) (by decide)
    (by decide) (by decide)).2 (by decide) (by decide)
  refine ⟨?_, ?_, ?_, ?_⟩
  · rw [h1.1]; decide
  · rw [h1.2]; decide
  · rw [h2.1]; decide
  · rw [h2.2]; decide

/-- C4 witness. -/
theorem processMove_melee_witness :
    ∃ st' evs, processMove meleeState .right rngZero 0 = some (st', evs) ∧
      st'.player.x = meleeState.player.x ∧ st'.player.y = meleeState.player.y ∧
      (st'.enemies.map fun en => (en.id, en.hp)) =
        (meleeState.enemies.map fun en => (en.id, en.hp)).set 0
          (nearRat.id, nearRat.hp - max 1 (meleeState.player.attack - nearRat.defense)) ∧
      st'.player.facingDirection = FacingDirection.right ∧
      evs.head? = some (GameEvent.playerAttacked nearRat.x nearRat.y
        (max 1 (meleeState.player.attack - nearRat.defense)) nearRat.id) ∧
      (nearRat.hp - max 1 (meleeState.player.attack - nearRat.defense) ≤ 0 →
        GameEvent.enemyKilled nearRat.id nearRat.type ∈ evs) :=
  processMove_melee meleeState .right rngZero 0 0 nearRat (by decide) (by decide)
    (by decide) (by decide)

/-! ## C6: descending stairs -/

theorem updateFacing_floor (st : GameState) (dir : Direction) :
    (updateFacing st dir).floor = st.floor := by cases dir <;> rfl

theorem updateFacing_items (st : GameState) (dir : Direction) :
    (updateFacing st dir).items = st.items := by cases dir <;> rfl

theorem updateFacing_score (st : GameState) (dir : Direction) :
    (updateFacing st dir).score = st.score := by cases dir <;> rfl

theorem updateFacing_hp (st : GameState) (dir : Direction) :
    (updateFacing st dir).player.hp = st.player.hp := by cases dir <;> rfl

theorem updateFacing_character (st : GameState) (dir : Direction) :
    (updateFacing st dir).player.character = st.player.character := by
  cases dir <;> rfl

theorem pickupAt_none (st : GameState) (nx ny : Int)
    (h : st.items.enum.find? (fun p => p.2.x == nx && p.2.y == ny) = none) :
    pickupAt st nx ny = (st, []) := by
  unfold pickupAt
  rw [h]

theorem updateFog_score (st : GameState) : (updateFog st).score = st.score := by
  unfold updateFog; rfl

theorem updateFog_status (st : GameState) : (updateFog st).status = st.status := by
  unfold updateFog; rfl

/-- The descend-path conclusions, shared by the two C6 parts. -/
theorem descendStairs_spec (st : GameState) (rng : Rng) (k : Nat) (gen : GenResult)
    (hactive : st.status = .active)
    (hstairs : tileTypeAt st.map st.player.y st.player.x = some .stairs)
    (hgen : generateMap rng k (st.floor + 1) st.player.character = some gen) :
    ∃ st' evs, descendStairs st rng k = some (st', evs) ∧
      st'.floor = st.floor + 1 ∧
      st'.map = gen.map ∧ st'.enemies = gen.enemies ∧ st'.items = gen.items ∧
      st'.player.x = gen.playerStart.x ∧ st'.player.y = gen.playerStart.y ∧
      st'.player.hp = st.player.hp ∧
      st'.fog = (updateFog { st with
        floor := st.floor + 1, map := gen.map,
        player := { st.player with x := gen.playerStart.x, y := gen.playerStart.y },
        enemies := gen.enemies, items := gen.items, fog := initializeFog }).fog ∧
      st'.score = st.score + 100 + (if st.floor + 1 ≥ 20 then 1000 else 0) ∧
      st'.status = (if st.floor + 1 ≥ 20 then GameStatus.won else GameStatus.active) ∧
      evs = (if st.floor + 1 ≥ 20 then [GameEvent.floorDescended, GameEvent.gameWon]
             else [GameEvent.floorDescended]) := by
  unfold descendStairs
  rw [if_neg (by simp [hactive]), if_neg (by simp [hstairs])]
  dsimp only
  rw [hgen]
  dsimp only
  split
  · rename_i hwon
    refine ⟨_, _, rfl, rfl, rfl, rfl, rfl, rfl, rfl, rfl, rfl, ?_, ?_, ?_⟩
    · simp [hwon, updateFog_score]
    · simp [hwon]
    · simp [hwon]
  · rename_i hlost
    refine ⟨_, _, rfl, rfl, rfl, rfl, rfl, rfl, rfl, rfl, rfl, ?_, ?_, ?_⟩
    · simp [hlost, updateFog_score]
    · simp [hactive, hlost, updateFog_status]
    · simp [hlost]

/-- The fog produced by `updateFog` depends only on the player position,
the map and the incoming fog. -/
theorem updateFog_fog_congr (a b : GameState)
    (hx : a.player.x = b.player.x) (hy : a.player.y = b.player.y)
    (hm : a.map = b.map) (hf : a.fog = b.fog) :
    (updateFog a).fog = (updateFog b).fog := by
  unfold updateFog
  dsimp only
  rw [hx, hy, hm, hf]

/-- `handleEquipmentPickup` keeps status, floor, score, character, the
map and the player's position. -/
theorem handleEquipmentPickup_frame2 (st : GameState) (item : Item) (eq : Equipment)
    (i : Nat) :
    (handleEquipmentPickup st item eq i).1.status = st.status ∧
    (handleEquipmentPickup st item eq i).1.floor = st.floor ∧
    (handleEquipmentPickup st item eq i).1.score = st.score ∧
    (handleEquipmentPickup st item eq i).1.player.character = st.player.character ∧
    (handleEquipmentPickup st item eq i).1.map = st.map ∧
    (handleEquipmentPickup st item eq i).1.player.x = st.player.x ∧
    (handleEquipmentPickup st item eq i).1.player.y = st.player.y := by
  unfold handleEquipmentPickup
  dsimp only
  repeat' split
  all_goals exact ⟨rfl, rfl, rfl, rfl, rfl, rfl, rfl⟩

/-- `pickupAt` keeps status, floor, score, character, the map and the
player's position (only items and the rest of the player may change). -/
theorem pickupAt_frame2 (st : GameState) (nx ny : Int) :
    (pickupAt st nx ny).1.status = st.status ∧
    (pickupAt st nx ny).1.floor = st.floor ∧
    (pickupAt st nx ny).1.score = st.score ∧
    (pickupAt st nx ny).1.player.character = st.player.character ∧
    (pickupAt st nx ny).1.map = st.map ∧
    (pickupAt st nx ny).1.player.x = st.player.x ∧
    (pickupAt st nx ny).1.player.y = st.player.y := by
  unfold pickupAt
  dsimp only
  repeat' split
  all_goals
    first
    | exact ⟨rfl, rfl, rfl, rfl, rfl, rfl, rfl⟩
    | exact handleEquipmentPickup_frame2 _ _ _ _

/-- C6: for an active-status player, descending — standing on the
stairs (the direct `descendStairs` call) or stepping onto them via
`processMove`, possibly picking up an item lying on the stairs tile on
the way — increments the floor, replaces map/enemies/items/fog with the
freshly generated floor, moves the player to the new floor's start,
re-reveals the fog around that start (`updateFog` over `initializeFog`),
adds exactly 100 to the score (plus 1000, status `won` and a `game_won`
event when the new floor is ≥ 20), and runs no enemy AI on that turn:
the enemies are exactly the generated ones and the player's hp is
exactly its value before the descend (after any pickup). -/
theorem processMove_descend (st : GameState) (dir : Direction) (rng : Rng) (k : Nat)
    (gen : GenResult)
    (hactive : st.status = .active) :
    (tileTypeAt st.map st.player.y st.player.x = some .stairs →
      generateMap rng k (st.floor + 1) st.player.character = some gen →
      ∃ st' evs, descendStairs st rng k = some (st', evs) ∧
        st'.floor = st.floor + 1 ∧
        st'.map = gen.map ∧ st'.enemies = gen.enemies ∧ st'.items = gen.items ∧
        st'.player.x = gen.playerStart.x ∧ st'.player.y = gen.playerStart.y ∧
        st'.player.hp = st.player.hp ∧
        st'.fog = (updateFog { st with
          floor := st.floor + 1, map := gen.map,
          player := { st.player with x := gen.playerStart.x, y := gen.playerStart.y },
          enemies := gen.enemies, items := gen.items, fog := initializeFog }).fog ∧
        st'.score = st.score + 100 + (if st.floor + 1 ≥ 20 then 1000 else 0) ∧
        st'.status = (if st.floor + 1 ≥ 20 then GameStatus.won else GameStatus.active) ∧
        evs = (if st.floor + 1 ≥ 20 then [GameEvent.floorDescended, GameEvent.gameWon]
               else [GameEvent.floorDescended])) ∧
    (¬(st.player.y + (directionDelta dir).2 < 0 ∨
        st.player.y + (directionDelta dir).2 ≥ (height2 st.map : Int) ∨
        st.player.x + (directionDelta dir).1 < 0 ∨
        st.player.x + (directionDelta dir).1 ≥ (width2 st.map : Int)) →
      isWallCell st.map (st.player.y + (directionDelta dir).2)
        (st.player.x + (directionDelta dir).1) = false →
      st.enemies.enum.find?
        (fun p => p.2.x == st.player.x + (directionDelta dir).1 &&
          p.2.y == st.player.y + (directionDelta dir).2 && decide (0 < p.2.hp)) = none →
      tileTypeAt st.map (st.player.y + (directionDelta dir).2)
        (st.player.x + (directionDelta dir).1) = some .stairs →
      generateMap rng k (st.floor + 1) st.player.character = some gen →
      ∃ stP pickEvs st' evs,
        pickupAt (updateFacing { st with player := { st.player with
            x := st.player.x + (directionDelta dir).1,
            y := st.player.y + (directionDelta dir).2 } } dir)
          (st.player.x + (directionDelta dir).1)
          (st.player.y + (directionDelta dir).2) = (stP, pickEvs) ∧
        processMove st dir rng k = some (st', evs) ∧
        st'.floor = st.floor + 1 ∧
        st'.map = gen.map ∧ st'.enemies = gen.enemies ∧ st'.items = gen.items ∧
        st'.player.x = gen.playerStart.x ∧ st'.player.y = gen.playerStart.y ∧
        st'.player.hp = stP.player.hp ∧
        st'.fog = (updateFog { st with
          floor := st.floor + 1, map := gen.map,
          player := { st.player with x := gen.playerStart.x, y := gen.playerStart.y },
          enemies := gen.enemies, items := gen.items, fog := initializeFog }).fog ∧
        st'.score = st.score + 100 + (if st.floor + 1 ≥ 20 then 1000 else 0) ∧
        st'.status = (if st.floor + 1 ≥ 20 then GameStatus.won else GameStatus.active) ∧
        evs = GameEvent.playerMoved :: pickEvs ++
          (if st.floor + 1 ≥ 20 then [GameEvent.floorDescended, GameEvent.gameWon]
           else [GameEvent.floorDescended])) := by
  constructor
  · intro hs hg
    exact descendStairs_spec st rng k gen hactive hs hg
  · intro hin hwall hnoenemy hstairs hgen
    have hfr : ∀ f : GameState, f = updateFacing
        { playerName := st.playerName, floor := st.floor,
          player := { x := st.player.x + (directionDelta dir).1,
                      y := st.player.y + (directionDelta dir).2, hp := st.player.hp,
                      maxHp := st.player.maxHp, attack := st.player.attack,
                      defense := st.player.defense, inventory := st.player.inventory,
                      xp := st.player.xp, level := st.player.level,
                      xpToNextLevel := st.player.xpToNextLevel,
                      equipment := st.player.equipment,
                      character := st.player.character,
                      facingDirection := st.player.facingDirection },
          map := st.map, enemies := st.enemies, items := st.items, fog := st.fog,
          status := st.status, score := st.score } dir →
        (pickupAt f (st.player.x + (directionDelta dir).1)
            (st.player.y + (directionDelta dir).2)).1.status = GameStatus.active ∧
        (pickupAt f (st.player.x + (directionDelta dir).1)
            (st.player.y + (directionDelta dir).2)).1.floor = st.floor ∧
        (pickupAt f (st.player.x + (directionDelta dir).1)
            (st.player.y + (directionDelta dir).2)).1.score = st.score ∧
        (pickupAt f (st.player.x + (directionDelta dir).1)
            (st.player.y + (directionDelta dir).2)).1.player.character =
          st.player.character ∧
        (pickupAt f (st.player.x + (directionDelta dir).1)
            (st.player.y + (directionDelta dir).2)).1.map = st.map ∧
        (pickupAt f (st.player.x + (directionDelta dir).1)
            (st.player.y + (directionDelta dir).2)).1.player.x =
          st.player.x + (directionDelta dir).1 ∧
        (pickupAt f (st.player.x + (directionDelta dir).1)
            (st.player.y + (directionDelta dir).2)).1.player.y =
          st.player.y + (directionDelta dir).2 := by
      intro f hf
      subst hf
      refine ⟨?_, ?_, ?_, ?_, ?_, ?_, ?_⟩
      · exact (pickupAt_frame2 _ _ _).1.trans ((updateFacing_status _ _).trans hactive)
      · exact (pickupAt_frame2 _ _ _).2.1.trans (updateFacing_floor _ _)
      · exact (pickupAt_frame2 _ _ _).2.2.1.trans (updateFacing_score _ _)
      · exact (pickupAt_frame2 _ _ _).2.2.2.1.trans (updateFacing_character _ _)
      · exact (pickupAt_frame2 _ _ _).2.2.2.2.1.trans (updateFacing_map _ _)
      · exact (pickupAt_frame2 _ _ _).2.2.2.2.2.1.trans (updateFacing_px _ _)
      · exact (pickupAt_frame2 _ _ _).2.2.2.2.2.2.trans (updateFacing_py _ _)
    obtain ⟨hPstat, hPfloor, hPscore, hPchar, hPmap, hPx, hPy⟩ := hfr _ rfl
    have hD := descendStairs_spec _ rng k gen hPstat
      (by rw [hPmap, hPx, hPy]; exact hstairs)
      (by rw [hPfloor, hPchar]; exact hgen)
    obtain ⟨st', evs', heq, h1, h2, h3, h4, h5, h6, h7, h8, h9, h10, h11⟩ := hD
    unfold processMove
    rw [if_neg (show ¬st.status ≠ GameStatus.active by simp [hactive])]
    rw [if_neg hin, if_neg (by simp [hwall]), hnoenemy]
    dsimp only
    rw [if_pos (by rw [hPmap]; exact hstairs)]
    rw [heq]
    refine ⟨_, _, st', _, rfl, rfl, ?_, h2, h3, h4, h5, h6, h7, ?_, ?_, ?_, ?_⟩
    · rw [h1, hPfloor]
    · exact h8.trans (updateFog_fog_congr _ _ rfl rfl rfl rfl)
    · rw [h9, hPscore, hPfloor]
    · rw [h10, hPfloor]
    · rw [h11, hPfloor]
      simp only [List.cons_append]
      rfl

/-- C6 witness: standing on the stairs of `stairStandState` (direct
`descendStairs`) and stepping right onto the stairs of `stairState`
both descend to floor 2 of the two-room stream. -/
theorem processMove_descend_witness :
    stairStandState.status = GameStatus.active ∧
    (∃ st' evs, descendStairs stairStandState rngTwoRooms 0 = some (st', evs) ∧
      st'.floor = stairStandState.floor + 1 ∧
      st'.map = gen2.map ∧ st'.enemies = gen2.enemies ∧ st'.items = gen2.items ∧
      st'.player.x = gen2.playerStart.x ∧ st'.player.y = gen2.playerStart.y ∧
      st'.player.hp = stairStandState.player.hp ∧
      st'.fog = (updateFog { stairStandState with
        floor := stairStandState.floor + 1, map := gen2.map,
        player := { stairStandState.player with
          x := gen2.playerStart.x, y := gen2.playerStart.y },
        enemies := gen2.enemies, items := gen2.items, fog := initializeFog }).fog ∧
      st'.score = stairStandState.score + 100 +
        (if stairStandState.floor + 1 ≥ 20 then 1000 else 0) ∧
      st'.status = (if stairStandState.floor + 1 ≥ 20 then GameStatus.won
                    else GameStatus.active) ∧
      evs = (if stairStandState.floor + 1 ≥ 20 then
               [GameEvent.floorDescended, GameEvent.gameWon]
             else [GameEvent.floorDescended])) ∧
    (∃ stP pickEvs st' evs,
      pickupAt (updateFacing { stairState with player := { stairState.player with
          x := stairState.player.x + (directionDelta Direction.right).1,
          y := stairState.player.y + (directionDelta Direction.right).2 } }
          Direction.right)
        (stairState.player.x + (directionDelta Direction.right).1)
        (stairState.player.y + (directionDelta Direction.right).2) = (stP, pickEvs) ∧
      processMove stairState Direction.right rngTwoRooms 0 = some (st', evs) ∧
      st'.floor = stairState.floor + 1 ∧
      st'.map = gen2.map ∧ st'.enemies = gen2.enemies ∧ st'.items = gen2.items ∧
      st'.player.x = gen2.playerStart.x ∧ st'.player.y = gen2.playerStart.y ∧
      st'.player.hp = stP.player.hp ∧
      st'.fog = (updateFog { stairState with
        floor := stairState.floor + 1, map := gen2.map,
        player := { stairState.player with
          x := gen2.playerStart.x, y := gen2.playerStart.y },
        enemies := gen2.enemies, items := gen2.items, fog := initializeFog }).fog ∧
      st'.score = stairState.score + 100 +
        (if stairState.floor + 1 ≥ 20 then 1000 else 0) ∧
      st'.status = (if stairState.floor + 1 ≥ 20 then GameStatus.won
                    else GameStatus.active) ∧
      evs = GameEvent.playerMoved :: pickEvs ++
        (if stairState.floor + 1 ≥ 20 then [GameEvent.floorDescended, GameEvent.gameWon]
         else [GameEvent.floorDescended])) :=
  ⟨by decide,
   (processMove_descend stairStandState Direction.right rngTwoRooms 0 gen2 (by decide)).1
     (by decide) (by rfl),
   (processMove_descend stairState Direction.right rngTwoRooms 0 gen2 (by decide)).2
     (by decide) (by decide) (by decide) (by decide) (by rfl)⟩

/-! ## C2: enemy separation -/

theorem enemiesOK_get? (st : GameState) : EnemiesOK st ↔
    ((∀ (i j : Nat) (ei ej : Enemy), i ≠ j →
        st.enemies.get? i = some ei → st.enemies.get? j = some ej →
        0 < ei.hp → 0 < ej.hp → ¬(ei.x = ej.x ∧ ei.y = ej.y)) ∧
     ∀ (i : Nat) (ei : Enemy), st.enemies.get? i = some ei → 0 < ei.hp →
        ¬(ei.x = st.player.x ∧ ei.y = st.player.y)) := by
  unfold EnemiesOK
  rw [List.pairwise_iff_get]
  constructor
  · rintro ⟨hp, hpl⟩
    constructor
    · intro i j ei ej hne hi hj hli hlj
      obtain ⟨hi', hgi⟩ := List.get?_eq_some.mp hi
      obtain ⟨hj', hgj⟩ := List.get?_eq_some.mp hj
      subst hgi
      subst hgj
      rcases Nat.lt_or_ge i j with hlt | hge
      · exact hp ⟨i, hi'⟩ ⟨j, hj'⟩ hlt hli hlj
      · have hgt : j < i := by omega
        intro hxy
        exact hp ⟨j, hj'⟩ ⟨i, hi'⟩ hgt hlj hli ⟨hxy.1.symm, hxy.2.symm⟩
    · intro i ei hi hl
      obtain ⟨hi', hgi⟩ := List.get?_eq_some.mp hi
      subst hgi
      exact hpl _ (st.enemies.get_mem _ _) hl
  · rintro ⟨hp, hpl⟩
    constructor
    · intro i j hlt
      exact hp i.1 j.1 _ _ (by omega) (List.get?_eq_get i.2) (List.get?_eq_get j.2)
    · intro e he hl
      obtain ⟨i, hi⟩ := List.mem_iff_get?.mp he
      exact hpl i e hi hl

theorem canMoveToTile_spec (st : GameState) (idx : Nat) (x y : Int)
    (h : canMoveToTile st idx x y = true) :
    ¬(x = st.player.x ∧ y = st.player.y) ∧
    ∀ (j : Nat) (ej : Enemy), st.enemies.get? j = some ej → j ≠ idx → 0 < ej.hp →
      ¬(ej.x = x ∧ ej.y = y) := by
  unfold canMoveToTile at h
  split_ifs at h with h1 h2 h3 h4
  refine ⟨h3, ?_⟩
  intro j ej hj hne hl hxy
  apply h4
  rw [List.any_eq_true]
  refine ⟨(j, ej), ?_, ?_⟩
  · rw [List.mk_mem_enum_iff_getElem?, ← List.get?_eq_getElem?]
    exact hj
  · simp [hne, hxy.1, hxy.2, hl]

/-- Moving the enemy at `idx` to a `canMoveToTile`-approved cell keeps
the separation invariant. -/
theorem EnemiesOK_move (st : GameState) (idx : Nat) (e e' : Enemy) (x y : Int)
    (hget : st.enemies.get? idx = some e)
    (hcan : canMoveToTile st idx x y = true)
    (hx : e'.x = x) (hy : e'.y = y) (hhp : e'.hp = e.hp)
    (hOK : EnemiesOK st) : EnemiesOK (setEnemy st idx e') := by
  obtain ⟨hplayer, henemies⟩ := canMoveToTile_spec st idx x y hcan
  rw [enemiesOK_get?] at hOK ⊢
  simp only [setEnemy]
  obtain ⟨hpair, hpl⟩ := hOK
  have hidx : idx < st.enemies.length := get?_lt_length hget
  have hset : ∀ (i : Nat) (ei : Enemy),
      (st.enemies.set idx e').get? i = some ei →
      (i = idx ∧ ei = e') ∨ (i ≠ idx ∧ st.enemies.get? i = some ei) := by
    intro i ei hi
    by_cases hii : i = idx
    · subst hii
      rw [get?_set_self _ _ _ hidx] at hi
      exact Or.inl ⟨rfl, (Option.some.injEq _ _ ▸ hi).symm⟩
    · right
      refine ⟨hii, ?_⟩
      rw [← hi]
      rw [List.get?_eq_getElem?, List.get?_eq_getElem?]
      exact (List.getElem?_set_ne (fun hc => hii hc.symm)).symm
  constructor
  · intro i j ei ej hne hi hj hli hlj
    rcases hset i ei hi with ⟨hieq, rfl⟩ | ⟨hine, hi'⟩
    · rcases hset j ej hj with ⟨hjeq, rfl⟩ | ⟨hjne, hj'⟩
      · omega
      · intro hxy
        exact henemies j ej hj' (by omega) hlj
          ⟨by rw [← hxy.1, hx], by rw [← hxy.2, hy]⟩
    · rcases hset j ej hj with ⟨hjeq, rfl⟩ | ⟨hjne, hj'⟩
      · subst hjeq
        intro hxy
        exact henemies i ei hi' hine hli ⟨by rw [hxy.1, hx], by rw [hxy.2, hy]⟩
      · exact hpair i j ei ej hne hi' hj' hli hlj
  · intro i ei hi hl
    rcases hset i ei hi with ⟨hieq, rfl⟩ | ⟨hine, hi'⟩
    · intro hxy
      exact hplayer ⟨by rw [← hxy.1, hx], by rw [← hxy.2, hy]⟩
    · exact hpl i ei hi' hl

/-- Replacing the enemy at `idx` without changing its position and
without raising a dead enemy keeps the separation invariant. -/
theorem EnemiesOK_replace (st : GameState) (idx : Nat) (e e' : Enemy)
    (hget : st.enemies.get? idx = some e)
    (hx : e'.x = e.x) (hy : e'.y = e.y) (hhp : e'.hp ≤ e.hp)
    (hOK : EnemiesOK st) : EnemiesOK (setEnemy st idx e') := by
  rw [enemiesOK_get?] at hOK ⊢
  simp only [setEnemy]
  obtain ⟨hpair, hpl⟩ := hOK
  have hidx : idx < st.enemies.length := get?_lt_length hget
  have hset : ∀ (i : Nat) (ei : Enemy),
      (st.enemies.set idx e').get? i = some ei →
      (i = idx ∧ ei = e') ∨ (i ≠ idx ∧ st.enemies.get? i = some ei) := by
    intro i ei hi
    by_cases hii : i = idx
    · subst hii
      rw [get?_set_self _ _ _ hidx] at hi
      exact Or.inl ⟨rfl, (Option.some.injEq _ _ ▸ hi).symm⟩
    · right
      refine ⟨hii, ?_⟩
      rw [← hi]
      rw [List.get?_eq_getElem?, List.get?_eq_getElem?]
      exact (List.getElem?_set_ne (fun hc => hii hc.symm)).symm
  constructor
  · intro i j ei ej hne hi hj hli hlj
    rcases hset i ei hi with ⟨hieq, rfl⟩ | ⟨hine, hi'⟩
    · rcases hset j ej hj with ⟨hjeq, rfl⟩ | ⟨hjne, hj'⟩
      · omega
      · have := hpair i j e ej (by omega) (hieq ▸ hget) hj' (by omega) hlj
        rw [← hx, ← hy] at this
        exact this
    · rcases hset j ej hj with ⟨hjeq, rfl⟩ | ⟨hjne, hj'⟩
      · have := hpair i j ei e hne hi' (hjeq ▸ hget) hli (by omega)
        rw [← hx, ← hy] at this
        exact this
      · exact hpair i j ei ej hne hi' hj' hli hlj
  · intro i ei hi hl
    rcases hset i ei hi with ⟨hieq, rfl⟩ | ⟨hine, hi'⟩
    · have := hpl i e (hieq ▸ hget) (by omega)
      rw [← hx, ← hy] at this
      exact this
    · exact hpl i ei hi' hl

/-- The separation invariant only reads enemy positions/hp and the
player's position. -/
theorem EnemiesOK_congr (a b : GameState)
    (he : a.enemies = b.enemies)
    (hx : a.player.x = b.player.x) (hy : a.player.y = b.player.y)
    (h : EnemiesOK b) : EnemiesOK a := by
  rw [enemiesOK_get?] at h ⊢
  rw [he, hx, hy]
  exact h

theorem sub_max_le (a b : Int) : a - max 1 b ≤ a := by
  have h := le_max_left (1 : Int) b
  omega

/-- `enemyAttackPlayer` never changes the enemy list or the player's
position. -/
theorem enemyAttackPlayer_frame (st : GameState) (e : Enemy) :
    (enemyAttackPlayer st e).1.enemies = st.enemies ∧
    (enemyAttackPlayer st e).1.player.x = st.player.x ∧
    (enemyAttackPlayer st e).1.player.y = st.player.y := by
  unfold enemyAttackPlayer
  dsimp only
  split <;> exact ⟨rfl, rfl, rfl⟩

theorem enemyAttackPlayer_EnemiesOK (st : GameState) (e : Enemy)
    (h : EnemiesOK st) : EnemiesOK (enemyAttackPlayer st e).1 :=
  EnemiesOK_congr _ st (enemyAttackPlayer_frame st e).1
    (enemyAttackPlayer_frame st e).2.1 (enemyAttackPlayer_frame st e).2.2 h

theorem aggressiveCore_EnemiesOK (st1 : GameState) (e1 : Enemy) (idx : Nat)
    (canSee : Bool) (pc : Nat) (px py : Int)
    (hget : st1.enemies.get? idx = some e1)
    (h : EnemiesOK st1) :
    EnemiesOK (aggressiveCore st1 e1 idx canSee pc px py).state := by
  unfold aggressiveCore
  dsimp only
  split
  · exact h
  · split
    · exact enemyAttackPlayer_EnemiesOK _ _ h
    · split
      · split
        · exact enemyAttackPlayer_EnemiesOK _ _ h
        · split
          · rename_i hcan
            split
            · exact enemyAttackPlayer_EnemiesOK _ _
                (EnemiesOK_move st1 idx e1 _ _ _ hget hcan rfl rfl rfl h)
            · exact EnemiesOK_move st1 idx e1 _ _ _ hget hcan rfl rfl rfl h
          · exact h
      · split
        · split
          · exact EnemiesOK_replace st1 idx e1 _ hget rfl rfl le_rfl h
          · exact h
        · exact h

theorem enemyDispatch_EnemiesOK (st1 : GameState) (e1 : Enemy) (idx : Nat)
    (canSee : Bool) (pc : Nat) (px py : Int)
    (hget : st1.enemies.get? idx = some e1)
    (h : EnemiesOK st1) :
    EnemiesOK (enemyDispatch st1 e1 idx canSee pc px py).state := by
  unfold enemyDispatch
  split
  · dsimp only
    split
    · repeat' split
      all_goals
        first
        | exact h
        | (rename_i hcan
           exact EnemiesOK_move st1 idx e1 _ _ _ hget hcan rfl rfl rfl h)
    · exact aggressiveCore_EnemiesOK _ _ _ _ _ _ _ hget h
  · exact aggressiveCore_EnemiesOK _ _ _ _ _ _ _ hget h
  · dsimp only
    split
    · split
      · exact enemyAttackPlayer_EnemiesOK _ _ h
      · split
        · split
          · rename_i hcan
            split
            · exact enemyAttackPlayer_EnemiesOK _ _
                (EnemiesOK_move st1 idx e1 _ _ _ hget hcan rfl rfl rfl h)
            · exact EnemiesOK_move st1 idx e1 _ _ _ hget hcan rfl rfl rfl h
          · exact h
        · exact h
    · exact h
  · split
    · exact enemyAttackPlayer_EnemiesOK _ _ h
    · exact h

theorem enemyStep_EnemiesOK (st : GameState) (px py : Int) (idx : Nat) (dist : Int)
    (pc : Nat) (h : EnemiesOK st) :
    EnemiesOK (enemyStep st px py idx dist pc).state := by
  unfold enemyStep
  split
  · exact h
  · rename_i e0 hget
    split
    · exact h
    · have hlt : idx < st.enemies.length := get?_lt_length hget
      dsimp only
      cases hcs : hasLineOfSight st e0.x e0.y px py <;>
        simp only [hcs, if_true, if_false, Bool.false_eq_true, reduceIte]
      all_goals
        exact enemyDispatch_EnemiesOK _ _ idx _ pc px py (get?_set_self _ _ _ hlt)
          (EnemiesOK_replace st idx e0 _ hget rfl rfl le_rfl h)

theorem moveEnemiesGo_EnemiesOK (px py : Int) :
    ∀ (l : List (Nat × Int)) (st : GameState) (evs : List GameEvent) (pc : Nat),
      EnemiesOK st → EnemiesOK (moveEnemiesGo px py l st evs pc).1 := by
  intro l
  induction l with
  | nil => intro st evs pc h; exact h
  | cons hd tl ih =>
    intro st evs pc h
    obtain ⟨idx, dist⟩ := hd
    simp only [moveEnemiesGo]
    split
    · exact enemyStep_EnemiesOK st px py idx dist pc h
    · exact ih _ _ _ (enemyStep_EnemiesOK st px py idx dist pc h)

theorem moveEnemies_EnemiesOK (st : GameState) (h : EnemiesOK st) :
    EnemiesOK (moveEnemies st).1 := by
  unfold moveEnemies
  exact moveEnemiesGo_EnemiesOK _ _ _ _ _ _ h

theorem attackEnemy_EnemiesOK (st : GameState) (idx : Nat)
    (h : EnemiesOK st) : EnemiesOK (attackEnemy st idx).1 := by
  unfold attackEnemy
  split
  · exact h
  · rename_i enemy hget
    dsimp only
    split
    · exact EnemiesOK_congr _ _ (grantXp_frame _ _).1 (grantXp_frame _ _).2.1
        (grantXp_frame _ _).2.2.1
        (EnemiesOK_congr _ (setEnemy st idx _) rfl rfl rfl
          (EnemiesOK_replace st idx enemy _ hget rfl rfl (sub_max_le enemy.hp _) h))
    · exact EnemiesOK_replace st idx enemy _ hget rfl rfl (sub_max_le enemy.hp _) h

/-- `handleEquipmentPickup` never changes the enemy list, the player's
position or the map. -/
theorem handleEquipmentPickup_frame (st : GameState) (item : Item) (eq : Equipment)
    (i : Nat) :
    (handleEquipmentPickup st item eq i).1.enemies = st.enemies ∧
    (handleEquipmentPickup st item eq i).1.player.x = st.player.x ∧
    (handleEquipmentPickup st item eq i).1.player.y = st.player.y ∧
    (handleEquipmentPickup st item eq i).1.map = st.map := by
  unfold handleEquipmentPickup
  dsimp only
  repeat' split
  all_goals exact ⟨rfl, rfl, rfl, rfl⟩

/-- `pickupAt` never changes the enemy list, the player's position or
the map. -/
theorem pickupAt_frame (st : GameState) (nx ny : Int) :
    (pickupAt st nx ny).1.enemies = st.enemies ∧
    (pickupAt st nx ny).1.player.x = st.player.x ∧
    (pickupAt st nx ny).1.player.y = st.player.y ∧
    (pickupAt st nx ny).1.map = st.map := by
  unfold pickupAt
  dsimp only
  repeat' split
  all_goals
    first
    | exact ⟨rfl, rfl, rfl, rfl⟩
    | exact handleEquipmentPickup_frame _ _ _ _

theorem finishTurn_EnemiesOK (st : GameState) (evs : List GameEvent)
    (h : EnemiesOK st) : EnemiesOK (finishTurn st evs).1 := by
  unfold finishTurn
  dsimp only
  have hF : EnemiesOK (updateFog st) := EnemiesOK_congr _ st rfl rfl rfl h
  split
  · exact moveEnemies_EnemiesOK _ hF
  · exact hF

/-- Moving the player onto a cell that the move-block scan found free
of live enemies keeps the separation invariant. -/
theorem EnemiesOK_player_move (st : GameState) (nx ny : Int)
    (hOK : EnemiesOK st)
    (hfind : st.enemies.enum.find?
      (fun p => p.2.x == nx && p.2.y == ny && decide (0 < p.2.hp)) = none) :
    EnemiesOK { st with player := { st.player with x := nx, y := ny } } := by
  unfold EnemiesOK at hOK ⊢
  obtain ⟨hp, _⟩ := hOK
  refine ⟨hp, ?_⟩
  intro e he hl hxy
  obtain ⟨i, hi⟩ := List.mem_iff_get?.mp he
  have hm : (i, e) ∈ st.enemies.enum := by
    rw [List.mk_mem_enum_iff_getElem?, ← List.get?_eq_getElem?]
    exact hi
  have hne := List.find?_eq_none.mp hfind _ hm
  apply hne
  have hx : e.x = nx := hxy.1
  have hy : e.y = ny := hxy.2
  simp [hx, hy, hl]

/-- A hit reported by the ranged scan is a real entry of the enemy
list. -/
theorem rangedScanGo_hit_get? (st : GameState) (dx px py : Int) :
    ∀ (rem : Nat) (i : Int) (hxy : Int × Int) (j : Nat) (e : Enemy),
      (rangedScanGo st dx px py rem i hxy).1 = some (j, e) →
      st.enemies.get? j = some e := by
  intro rem
  induction rem with
  | zero =>
    intro i hxy j e h
    exact absurd h (by simp [rangedScanGo])
  | succ n ih =>
    intro i hxy j e h
    simp only [rangedScanGo] at h
    split at h
    · exact absurd h (by simp)
    · split at h
      · exact absurd h (by simp)
      · split at h
        · rename_i p q hfind
          simp only [Option.some.injEq, Prod.mk.injEq] at h
          rw [h.1, h.2] at hfind
          exact enum_find?_get? hfind
        · exact ih _ _ j e h

/-- C2 (amended): the enemy-separation invariant — no two live enemies
on one tile, no live enemy on the player's tile — is preserved by every
`processMove` whose target tile is not the stairs, and by every
`processAttack`.  (The claim as stated also covers the descend turn,
which is refuted separately: the freshly generated floor's enemy spawn
positions are not deduplicated.) -/
theorem turn_preserves_enemy_separation (st : GameState) (dir : Direction)
    (rng : Rng) (k : Nat)
    (hOK : EnemiesOK st)
    (hns : tileTypeAt st.map (st.player.y + (directionDelta dir).2)
      (st.player.x + (directionDelta dir).1) ≠ some TileType.stairs) :
    (∀ st' evs, processMove st dir rng k = some (st', evs) → EnemiesOK st') ∧
    EnemiesOK (processAttack st).1 := by
  constructor
  · intro st' evs hr
    unfold processMove at hr
    split at hr
    · simp only [Option.some.injEq, Prod.mk.injEq] at hr
      exact hr.1 ▸ hOK
    · dsimp only at hr
      split at hr
      · simp only [Option.some.injEq, Prod.mk.injEq] at hr
        exact hr.1 ▸ hOK
      · split at hr
        · simp only [Option.some.injEq, Prod.mk.injEq] at hr
          exact hr.1 ▸ hOK
        · split at hr
          · injection hr with hr
            have hst : _ = st' := congrArg Prod.fst hr
            rw [← hst]
            exact finishTurn_EnemiesOK _ _ (attackEnemy_EnemiesOK _ _
              (EnemiesOK_congr (updateFacing st dir) st (updateFacing_enemies st dir)
                (updateFacing_px st dir) (updateFacing_py st dir) hOK))
          · rename_i hfind
            rw [if_neg (by
              rw [(pickupAt_frame _ _ _).2.2.2, updateFacing_map]
              exact hns)] at hr
            injection hr with hr
            have hst : _ = st' := congrArg Prod.fst hr
            rw [← hst]
            exact finishTurn_EnemiesOK _ _ (EnemiesOK_congr _ _ (pickupAt_frame _ _ _).1
              (pickupAt_frame _ _ _).2.1 (pickupAt_frame _ _ _).2.2.1
              (EnemiesOK_congr _ _ (updateFacing_enemies _ _) (updateFacing_px _ _)
                (updateFacing_py _ _) (EnemiesOK_player_move st _ _ hOK hfind)))
  · unfold processAttack
    dsimp only
    split
    · exact hOK
    · split
      · rename_i j enemy heq
        have hget : st.enemies.get? j = some enemy :=
          rangedScanGo_hit_get? st _ st.player.x st.player.y _ _ _ j enemy heq
        dsimp only
        split
        · split
          · exact moveEnemies_EnemiesOK _
              (EnemiesOK_congr _ _ (grantXp_frame _ _).1 (grantXp_frame _ _).2.1
                (grantXp_frame _ _).2.2.1
                (EnemiesOK_congr _ (setEnemy st j _) rfl rfl rfl
                  (EnemiesOK_replace st j enemy _ hget rfl rfl
                    (sub_max_le enemy.hp _) hOK)))
          · exact EnemiesOK_congr _ _ (grantXp_frame _ _).1 (grantXp_frame _ _).2.1
              (grantXp_frame _ _).2.2.1
              (EnemiesOK_congr _ (setEnemy st j _) rfl rfl rfl
                (EnemiesOK_replace st j enemy _ hget rfl rfl
                  (sub_max_le enemy.hp _) hOK))
        · split
          · exact moveEnemies_EnemiesOK _
              (EnemiesOK_replace st j enemy _ hget rfl rfl (sub_max_le enemy.hp _) hOK)
          · exact EnemiesOK_replace st j enemy _ hget rfl rfl (sub_max_le enemy.hp _) hOK
      · split
        · exact moveEnemies_EnemiesOK _ hOK
        · exact hOK

/-- C2 counterexample to the descend clause: the descend turn from
`stairState` with the two-room stream lands on floor 2 where all four
generated rats share the tile (10, 1) — the separation invariant does
not hold at that turn boundary. -/
theorem enemy_separation_counterexample :
    EnemiesOK stairState ∧
    (processMove stairState .right rngTwoRooms 0).map
      (fun r => (r.1.floor, decide (EnemiesOK r.1))) = some (2, false) :=
  ⟨by decide, by decide⟩

/-- C2 witness: the two-rat corridor state satisfies the invariant, a
move right targets a plain floor tile, and the theorem applies. -/
theorem turn_preserves_enemy_separation_witness :
    EnemiesOK twoEnemyState ∧
    tileTypeAt twoEnemyState.map
      (twoEnemyState.player.y + (directionDelta .right).2)
      (twoEnemyState.player.x + (directionDelta .right).1) ≠ some TileType.stairs ∧
    ((∀ st' evs, processMove twoEnemyState .right rngZero 0 = some (st', evs) →
        EnemiesOK st') ∧
     EnemiesOK (processAttack twoEnemyState).1) :=
  ⟨by decide, by decide,
    turn_preserves_enemy_separation twoEnemyState .right rngZero 0
      (by decide) (by decide)⟩

/-! ## C1: deltas and fog -/

theorem mem_getVisibleEnemies {st : GameState} {e : Enemy}
    (h : e ∈ getVisibleEnemies st) :
    e ∈ st.enemies ∧ 0 < e.hp ∧ fogAt st.fog e.y e.x = true := by
  unfold getVisibleEnemies at h
  obtain ⟨h1, h2⟩ := List.mem_filter.mp h
  simp only [Bool.and_eq_true, decide_eq_true_eq] at h2
  exact ⟨h1, h2.1, h2.2⟩

theorem mem_getVisibleItems {st : GameState} {i : Item}
    (h : i ∈ getVisibleItems st) : i ∈ st.items ∧ fogAt st.fog i.y i.x = true := by
  unfold getVisibleItems at h
  exact ⟨(List.mem_filter.mp h).1, (List.mem_filter.mp h).2⟩

theorem mem_playerStatsDelta (p q : Player) (d : GameDelta)
    (h : d ∈ playerStatsDelta p q) :
    ∃ a b c d2 e f g, d = GameDelta.playerStats a b c d2 e f g := by
  unfold playerStatsDelta at h
  split at h
  · exact ⟨_, _, _, _, _, _, _, by simpa using h⟩
  · simp at h

theorem mem_itemRemovedDeltas (evs : List GameEvent) (d : GameDelta)
    (h : d ∈ itemRemovedDeltas evs) : ∃ iid, d = GameDelta.itemRemoved iid := by
  unfold itemRemovedDeltas at h
  obtain ⟨ev, _, hm⟩ := List.mem_flatMap.mp h
  split at hm
  · exact ⟨_, by simpa using hm⟩
  · split at hm
    · exact ⟨_, by simpa using hm⟩
    · simp at hm

theorem mem_itemVisibilityDeltas (prevVisItems : List Item) (st' : GameState)
    (d : GameDelta) (h : d ∈ itemVisibilityDeltas prevVisItems st') :
    ∃ i ∈ getVisibleItems st', d = GameDelta.itemVisible i := by
  unfold itemVisibilityDeltas at h
  dsimp only at h
  obtain ⟨i, hi, heq⟩ := List.mem_map.mp h
  exact ⟨i, (List.mem_filter.mp hi).1, heq.symm⟩

theorem mem_enemyVisibilityDeltas (prevVis prevEnemies : List Enemy) (st' : GameState)
    (d : GameDelta) (h : d ∈ enemyVisibilityDeltas prevVis prevEnemies st') :
    (∃ e ∈ getVisibleEnemies st', d = GameDelta.enemyVisible e) ∨
    (∃ pid, d = GameDelta.enemyKilled pid ∨ d = GameDelta.enemyHidden pid) ∨
    (∃ e ∈ getVisibleEnemies st',
      d = GameDelta.enemyMoved e.id e.x e.y ∨ d = GameDelta.enemyDamaged e.id e.hp) := by
  unfold enemyVisibilityDeltas at h
  dsimp only at h
  simp only [List.mem_append] at h
  rcases h with (hb | hl) | hs
  · obtain ⟨e, he, heq⟩ := List.mem_map.mp hb
    exact Or.inl ⟨e, (List.mem_filter.mp he).1, heq.symm⟩
  · obtain ⟨pid, hpid, heq⟩ := List.mem_map.mp hl
    refine Or.inr (Or.inl ⟨pid, ?_⟩)
    rw [← heq]
    split
    · split
      · exact Or.inl rfl
      · exact Or.inr rfl
    · exact Or.inr rfl
  · obtain ⟨e, he, hm⟩ := List.mem_flatMap.mp hs
    refine Or.inr (Or.inr ⟨e, (List.mem_filter.mp he).1, ?_⟩)
    split at hm
    · rcases List.mem_append.mp hm with hm1 | hm1
      · refine Or.inl ?_
        split at hm1
        · simpa using hm1
        · simp at hm1
      · refine Or.inr ?_
        split at hm1
        · simpa using hm1
        · simp at hm1
    · simp at hm

theorem deltaFogOK_other (st' : GameState) (d : GameDelta)
    (h1 : ∀ e, d ≠ GameDelta.enemyVisible e)
    (h2 : ∀ id x y, d ≠ GameDelta.enemyMoved id x y)
    (h3 : ∀ id hp, d ≠ GameDelta.enemyDamaged id hp)
    (h4 : ∀ it, d ≠ GameDelta.itemVisible it) :
    DeltaFogOK st' d := by
  unfold DeltaFogOK
  exact ⟨fun e h => absurd h (h1 e), fun id x y h => absurd h (h2 id x y),
    fun id hp h => absurd h (h3 id hp), fun it h => absurd h (h4 it)⟩

theorem deltaFogOK_visible (st' : GameState) (e : Enemy)
    (he : e ∈ getVisibleEnemies st') : DeltaFogOK st' (GameDelta.enemyVisible e) := by
  obtain ⟨_, _, hf⟩ := mem_getVisibleEnemies he
  unfold DeltaFogOK
  refine ⟨?_, ?_, ?_, ?_⟩
  · intro e2 h
    cases h
    exact hf
  · intro id x y h
    cases h
  · intro id hp h
    cases h
  · intro it h
    cases h

theorem deltaFogOK_moved (st' : GameState) (e : Enemy)
    (he : e ∈ getVisibleEnemies st') :
    DeltaFogOK st' (GameDelta.enemyMoved e.id e.x e.y) := by
  obtain ⟨_, _, hf⟩ := mem_getVisibleEnemies he
  unfold DeltaFogOK
  refine ⟨?_, ?_, ?_, ?_⟩
  · intro e2 h
    cases h
  · intro id x y h
    cases h
    exact hf
  · intro id hp h
    cases h
  · intro it h
    cases h

theorem deltaFogOK_damaged (st' : GameState) (e : Enemy)
    (he : e ∈ getVisibleEnemies st') :
    DeltaFogOK st' (GameDelta.enemyDamaged e.id e.hp) := by
  obtain ⟨hmem, hhp, hf⟩ := mem_getVisibleEnemies he
  unfold DeltaFogOK
  refine ⟨?_, ?_, ?_, ?_⟩
  · intro e2 h
    cases h
  · intro id x y h
    cases h
  · intro id hp h
    cases h
    exact ⟨e, hmem, rfl, hhp, hf⟩
  · intro it h
    cases h

theorem deltaFogOK_item (st' : GameState) (i : Item)
    (hi : i ∈ getVisibleItems st') : DeltaFogOK st' (GameDelta.itemVisible i) := by
  obtain ⟨_, hf⟩ := mem_getVisibleItems hi
  unfold DeltaFogOK
  refine ⟨?_, ?_, ?_, ?_⟩
  · intro e2 h
    cases h
  · intro id x y h
    cases h
  · intro id hp h
    cases h
  · intro it h
    cases h
    exact hf

/-- C1 (amended): every delta emitted by `processMoveWithDeltas` that
references an enemy or item with coordinates — `enemy_visible`,
`enemy_moved`, `enemy_damaged`, `item_visible` — points at an entity
whose cell is revealed in the post-turn fog.  (The claim as stated also
covers `processAttackWithDeltas`, which is refuted separately: its
enemy block walks all enemies with no visibility filter.) -/
theorem processMoveWithDeltas_fog (st : GameState) (dir : Direction) (rng : Rng)
    (k : Nat) (st' : GameState) (evs : List GameEvent) (ds : List GameDelta)
    (h : processMoveWithDeltas st dir rng k = some (st', evs, ds)) :
    ∀ d ∈ ds, DeltaFogOK st' d := by
  unfold processMoveWithDeltas at h
  dsimp only at h
  split at h
  · exact absurd h (by simp)
  · simp only [Option.some.injEq, Prod.mk.injEq] at h
    obtain ⟨rfl, rfl, rfl⟩ := h
    intro d hd
    simp only [List.mem_append] at hd
    rcases hd with (((((((((h1 | h2) | h3) | h4) | h5) | h6) | h7) | h8) | h9) | h10) | h11
    · split at h1
      · rw [List.mem_singleton] at h1
        subst h1
        exact deltaFogOK_other _ _ (by simp) (by simp) (by simp) (by simp)
      · simp at h1
    · obtain ⟨a, b, c, d2, e2, f2, g2, rfl⟩ := mem_playerStatsDelta _ _ _ h2
      exact deltaFogOK_other _ _ (by simp) (by simp) (by simp) (by simp)
    · split at h3
      · rw [List.mem_singleton] at h3
        subst h3
        exact deltaFogOK_other _ _ (by simp) (by simp) (by simp) (by simp)
      · simp at h3
    · split at h4
      · rw [List.mem_singleton] at h4
        subst h4
        exact deltaFogOK_other _ _ (by simp) (by simp) (by simp) (by simp)
      · simp at h4
    · split at h5
      · simp only [List.mem_cons, List.mem_singleton] at h5
        rcases h5 with rfl | rfl | h5
        · exact deltaFogOK_other _ _ (by simp) (by simp) (by simp) (by simp)
        · exact deltaFogOK_other _ _ (by simp) (by simp) (by simp) (by simp)
        · simp at h5
      · simp at h5
    · rcases mem_enemyVisibilityDeltas _ _ _ _ h6 with
        ⟨e, he, rfl⟩ | ⟨pid, rfl | rfl⟩ | ⟨e, he, rfl | rfl⟩
      · exact deltaFogOK_visible _ _ he
      · exact deltaFogOK_other _ _ (by simp) (by simp) (by simp) (by simp)
      · exact deltaFogOK_other _ _ (by simp) (by simp) (by simp) (by simp)
      · exact deltaFogOK_moved _ _ he
      · exact deltaFogOK_damaged _ _ he
    · obtain ⟨i, hi, rfl⟩ := mem_itemVisibilityDeltas _ _ _ h7
      exact deltaFogOK_item _ _ hi
    · obtain ⟨iid, rfl⟩ := mem_itemRemovedDeltas _ _ h8
      exact deltaFogOK_other _ _ (by simp) (by simp) (by simp) (by simp)
    · split at h9
      · rw [List.mem_singleton] at h9
        subst h9
        exact deltaFogOK_other _ _ (by simp) (by simp) (by simp) (by simp)
      · simp at h9
    · obtain ⟨ev, _, rfl⟩ := List.mem_map.mp h10
      exact deltaFogOK_other _ _ (by simp) (by simp) (by simp) (by simp)
    · split at h11
      · rw [List.mem_singleton] at h11
        subst h11
        exact deltaFogOK_other _ _ (by simp) (by simp) (by simp) (by simp)
      · simp at h11

/-- C1 counterexample to the claim as stated: `processAttackWithDeltas`
on the corridor state emits `enemyMoved "e" 7 1` although cell (7, 1)
is outside the post-turn fog — the rat is seven tiles away, beyond the
vision radius, yet its fresh position is broadcast. -/
theorem deltas_fog_counterexample :
    GameDelta.enemyMoved "e" 7 1 ∈ (processAttackWithDeltas corridorState).2.2 ∧
    fogAt (processAttackWithDeltas corridorState).1.fog 1 7 = false :=
  ⟨by decide, by decide⟩

/-- C1 witness: a melee kill turn produces a nonempty delta list and
the theorem applies to it. -/
theorem processMoveWithDeltas_fog_witness :
    (processMoveWithDeltas meleeState .right rngZero 0).isSome = true ∧
    (∀ d ∈ ((processMoveWithDeltas meleeState .right rngZero 0).getD
        (meleeState, [], [])).2.2,
      DeltaFogOK ((processMoveWithDeltas meleeState .right rngZero 0).getD
        (meleeState, [], [])).1 d) :=
  ⟨by decide,
    processMoveWithDeltas_fog meleeState .right rngZero 0 _ _ _ (by rfl)⟩

/-! ## C3: floor connectivity -/

theorem randomInt_bounds (rng : Rng) (k : Nat) (lo hi : Int) (h : lo ≤ hi) :
    lo ≤ randomInt rng k lo hi ∧ randomInt rng k lo hi ≤ hi := by
  unfold randomInt
  dsimp only
  split
  · exact ⟨le_rfl, h⟩
  · rename_i h0
    have hm : rng k % (hi - lo + 1).toNat < (hi - lo + 1).toNat :=
      Nat.mod_lt _ (Nat.pos_of_ne_zero h0)
    simp only [Int.ofNat_eq_natCast]
    omega

theorem genRoomsLoop_roomOK (rng : Rng) (numRooms : Nat) :
    ∀ (fuel k : Nat) (rooms : List Room), (∀ r ∈ rooms, RoomOK r) →
      ∀ r ∈ (genRoomsLoop rng numRooms fuel k rooms).1, RoomOK r := by
  intro fuel
  induction fuel with
  | zero =>
    intro k rooms h
    simpa [genRoomsLoop] using h
  | succ n ih =>
    intro k rooms h
    rw [genRoomsLoop]
    dsimp only
    split
    · exact h
    · split
      · exact ih _ _ h
      · split
        · exact ih _ _ h
        · split
          · exact ih _ _ h
          · refine ih _ _ ?_
            intro r hr
            rcases List.mem_append.mp hr with hr | hr
            · exact h r hr
            · rw [List.mem_singleton] at hr
              subst hr
              have hx := randomInt_bounds rng k 1 ((MAP_WIDTH : Int) - 10) (by decide)
              have hy := randomInt_bounds rng (k + 1) 1 ((MAP_HEIGHT : Int) - 8) (by decide)
              have hw := randomInt_bounds rng (k + 2) 4 8 (by decide)
              have hh := randomInt_bounds rng (k + 3) 4 6 (by decide)
              have hW : (MAP_WIDTH : Int) = 40 := rfl
              have hH : (MAP_HEIGHT : Int) = 24 := rfl
              unfold RoomOK
              dsimp only
              omega

theorem mem_insertByKey {α : Type} (key : α → Int) (a : α) :
    ∀ (l : List α) (x : α), x ∈ insertByKey key a l ↔ x = a ∨ x ∈ l := by
  intro l
  induction l with
  | nil => intro x; simp [insertByKey]
  | cons b t ih =>
    intro x
    rw [insertByKey]
    split
    · simp
    · rw [List.mem_cons, ih x, List.mem_cons]
      tauto

theorem mem_stableSortBy {α : Type} (key : α → Int) :
    ∀ (l : List α) (x : α), x ∈ stableSortBy key l ↔ x ∈ l := by
  intro l
  induction l with
  | nil => intro x; simp [stableSortBy]
  | cons a t ih =>
    intro x
    rw [stableSortBy, mem_insertByKey, ih, List.mem_cons]

theorem mem_of_headq {α : Type} {l : List α} {a : α} (h : l.head? = some a) : a ∈ l := by
  cases l <;> simp_all

theorem mem_of_getLastq {α : Type} : ∀ {l : List α} {a : α}, l.getLast? = some a → a ∈ l := by
  intro l
  induction l with
  | nil => intro a h; simp at h
  | cons b t ih =>
    intro a h
    cases t with
    | nil =>
      simp [List.getLast?] at h
      simp [h]
    | cons c u =>
      rw [List.getLast?_cons_cons] at h
      exact List.mem_cons_of_mem b (ih h)

theorem head_eq_getLast_of_short {α : Type} {l : List α} {a b : α}
    (hlen : ¬l.length ≥ 2) (ha : l.head? = some a) (hb : l.getLast? = some b) : a = b := by
  cases l with
  | nil => simp at ha
  | cons x t =>
    cases t with
    | nil =>
      simp at ha
      simp [List.getLast?] at hb
      simp_all
    | cons y u =>
      exact absurd (by simp) hlen

theorem lookup2_set2_self {α : Type} {m : List (List α)} {y x : Int} {b : α} (a : α)
    (hb : lookup2 m y x = some b) : lookup2 (set2 m y x a) y x = some a := by
  unfold lookup2 at hb
  split at hb
  · exact absurd hb (by simp)
  · rename_i hcond
    split at hb
    · exact absurd hb (by simp)
    · rename_i row hrow
      have hyl : y.toNat < m.length := get?_lt_length hrow
      have hxl : x.toNat < row.length := get?_lt_length hb
      unfold set2
      rw [if_neg hcond, hrow]
      dsimp only
      unfold lookup2
      rw [if_neg hcond, get?_set_self _ _ _ hyl]
      dsimp only
      exact get?_set_self _ _ _ (by simpa using hxl)

theorem lookup2_set2_ne {α : Type} {m : List (List α)} (y x y' x' : Int) (a : α)
    (hne : ¬(y' = y ∧ x' = x)) :
    lookup2 (set2 m y x a) y' x' = lookup2 m y' x' := by
  unfold set2
  split
  · rfl
  · rename_i hcond
    split
    · rfl
    · rename_i row hrow
      unfold lookup2
      split
      · rfl
      · rename_i hcond'
        by_cases hyy : y'.toNat = y.toNat
        · have hy'y : y' = y := by omega
          have hxx : x.toNat ≠ x'.toNat := by
            intro hc
            exact hne ⟨hy'y, by omega⟩
          rw [hyy, get?_set_self _ _ _ (get?_lt_length hrow), hrow]
          dsimp only
          rw [List.get?_eq_getElem?, List.get?_eq_getElem?]
          exact List.getElem?_set_ne hxx
        · have hset : (m.set y.toNat (row.set x.toNat a)).get? y'.toNat = m.get? y'.toNat := by
            rw [List.get?_eq_getElem?, List.get?_eq_getElem?]
            exact List.getElem?_set_ne (fun hc => hyy hc.symm)
          rw [hset]

theorem set2_hasCell {α : Type} {m : List (List α)} (y x : Int) (a : α) (y' x' : Int)
    (h : ∃ b, lookup2 m y' x' = some b) : ∃ b, lookup2 (set2 m y x a) y' x' = some b := by
  by_cases hc : y' = y ∧ x' = x
  · obtain ⟨b, hb⟩ := h
    obtain ⟨rfl, rfl⟩ := hc
    exact ⟨a, lookup2_set2_self a hb⟩
  · rw [lookup2_set2_ne y x y' x' a hc]
    exact h

theorem set2_nonWall_preserve (m : List (List Tile)) (y x : Int) (t : Tile)
    (ht : t.type ≠ TileType.wall) (x' y' : Int) (h : nonWallAt m x' y') :
    nonWallAt (set2 m y x t) x' y' := by
  obtain ⟨b, hb, hbw⟩ := h
  by_cases hc : y' = y ∧ x' = x
  · obtain ⟨rfl, rfl⟩ := hc
    exact ⟨t, lookup2_set2_self t hb, ht⟩
  · exact ⟨b, by rw [lookup2_set2_ne y x y' x' t hc]; exact hb, hbw⟩

theorem set2_nonWall_self (m : List (List Tile)) (y x : Int) (t : Tile)
    (ht : t.type ≠ TileType.wall) (b : Tile) (hb : lookup2 m y x = some b) :
    nonWallAt (set2 m y x t) x y :=
  ⟨t, lookup2_set2_self t hb, ht⟩

theorem foldl_preserve {β γ : Type} (g : γ → β → γ) (P : γ → Prop)
    (hg : ∀ m i, P m → P (g m i)) :
    ∀ (l : List β) (m : γ), P m → P (l.foldl g m) := by
  intro l
  induction l with
  | nil => intro m h; exact h
  | cons a t ih => intro m h; exact ih _ (hg m a h)

theorem foldl_set2_nonWall (cx cy : Int → Int) (tile : Int → Tile)
    (htile : ∀ i, (tile i).type ≠ TileType.wall) :
    ∀ (l : List Int) (m : List (List Tile)) (z : Int), z ∈ l →
      (∃ b, lookup2 m (cy z) (cx z) = some b) →
      nonWallAt (l.foldl (fun m2 i => set2 m2 (cy i) (cx i) (tile i)) m) (cx z) (cy z) := by
  intro l
  induction l with
  | nil =>
    intro m z hz hcell
    exact absurd hz (by simp)
  | cons a t ih =>
    intro m z hz hcell
    rcases List.mem_cons.mp hz with rfl | hz'
    · dsimp only [List.foldl]
      obtain ⟨b, hb⟩ := hcell
      exact foldl_preserve _ (fun m2 => nonWallAt m2 (cx z) (cy z))
        (fun m2 i hh => set2_nonWall_preserve m2 (cy i) (cx i) (tile i) (htile i) _ _ hh) t _
        (set2_nonWall_self _ _ _ _ (htile z) b hb)
    · dsimp only [List.foldl]
      exact ih _ z hz' (set2_hasCell (cy a) (cx a) (tile a) _ _ hcell)

theorem mem_intRangeIncl (a b z : Int) : z ∈ intRangeIncl a b ↔ a ≤ z ∧ z ≤ b := by
  unfold intRangeIncl
  simp only [List.mem_map, List.mem_range, Int.ofNat_eq_natCast]
  constructor
  · rintro ⟨i, hi, rfl⟩
    omega
  · intro ⟨h1, h2⟩
    exact ⟨(z - a).toNat, by omega, by omega⟩

theorem carveH_nonWall (m : List (List Tile)) (y x1 x2 z : Int)
    (hz : min x1 x2 ≤ z ∧ z ≤ max x1 x2)
    (hc : ∃ b, lookup2 m y z = some b) :
    nonWallAt (carveH m y x1 x2) z y := by
  unfold carveH
  exact foldl_set2_nonWall (fun i => i) (fun _ => y) (fun i => ⟨TileType.floor, i, y⟩)
    (fun i => by simp) _ m z ((mem_intRangeIncl _ _ _).mpr hz) hc

theorem carveV_nonWall (m : List (List Tile)) (x y1 y2 z : Int)
    (hz : min y1 y2 ≤ z ∧ z ≤ max y1 y2)
    (hc : ∃ b, lookup2 m z x = some b) :
    nonWallAt (carveV m x y1 y2) x z := by
  unfold carveV
  exact foldl_set2_nonWall (fun _ => x) (fun i => i) (fun i => ⟨TileType.floor, x, i⟩)
    (fun i => by simp) _ m z ((mem_intRangeIncl _ _ _).mpr hz) hc

theorem carveV_nonWall_preserve (m : List (List Tile)) (x y1 y2 x' y' : Int)
    (h : nonWallAt m x' y') : nonWallAt (carveV m x y1 y2) x' y' := by
  unfold carveV
  exact foldl_preserve _ (fun m2 => nonWallAt m2 x' y')
    (fun m2 i hh => set2_nonWall_preserve m2 i x ⟨TileType.floor, x, i⟩ (by simp) x' y' hh)
    _ m h

theorem Rect2_set2 {α : Type} {m : List (List α)} {H W : Nat} (h : Rect2 m H W)
    (y x : Int) (a : α) : Rect2 (set2 m y x a) H W := by
  obtain ⟨hl, hr⟩ := h
  unfold set2
  split
  · exact ⟨hl, hr⟩
  · split
    · exact ⟨hl, hr⟩
    · rename_i row hrow
      refine ⟨by simpa using hl, ?_⟩
      intro row2 hrow2
      rcases List.mem_or_eq_of_mem_set hrow2 with hmem | rfl
      · exact hr _ hmem
      · rw [List.length_set]
        exact hr row (List.get?_mem hrow)

theorem Rect2_initialWalls : Rect2 initialWalls 24 40 := by
  constructor
  · simp [initialWalls, MAP_HEIGHT]
  · intro row hrow
    simp only [initialWalls, List.mem_map] at hrow
    obtain ⟨y, _, rfl⟩ := hrow
    simp [MAP_WIDTH]

theorem Rect2_carveH {m : List (List Tile)} {H W : Nat} (y x1 x2 : Int)
    (h : Rect2 m H W) : Rect2 (carveH m y x1 x2) H W := by
  unfold carveH
  exact foldl_preserve _ (fun m2 => Rect2 m2 H W) (fun m2 i hh => Rect2_set2 hh _ _ _) _ m h

theorem Rect2_carveV {m : List (List Tile)} {H W : Nat} (x y1 y2 : Int)
    (h : Rect2 m H W) : Rect2 (carveV m x y1 y2) H W := by
  unfold carveV
  exact foldl_preserve _ (fun m2 => Rect2 m2 H W) (fun m2 i hh => Rect2_set2 hh _ _ _) _ m h

theorem Rect2_carveCorridor {m : List (List Tile)} {H W : Nat} (x1 y1 x2 y2 : Int)
    (h : Rect2 m H W) : Rect2 (carveCorridor m x1 y1 x2 y2) H W := by
  unfold carveCorridor
  exact Rect2_carveV _ _ _ (Rect2_carveH _ _ _ h)

theorem Rect2_carveRoom {m : List (List Tile)} {H W : Nat} (r : Room)
    (h : Rect2 m H W) : Rect2 (carveRoom m r) H W := by
  unfold carveRoom
  refine foldl_preserve _ (fun m2 => Rect2 m2 H W) ?_ _ m h
  intro m1 y h1
  exact foldl_preserve _ (fun m2 => Rect2 m2 H W) (fun m2 x h2 => Rect2_set2 h2 _ _ _) _ m1 h1

theorem Rect2_carveChain {H W : Nat} :
    ∀ (rooms : List Room) (m : List (List Tile)), Rect2 m H W →
      Rect2 (carveChain m rooms) H W := by
  intro rooms
  induction rooms with
  | nil => intro m h; exact h
  | cons a rest ih =>
    intro m h
    cases rest with
    | nil => exact h
    | cons b rest2 =>
      simp only [carveChain]
      exact ih _ (Rect2_carveCorridor _ _ _ _ h)

theorem Rect2_hasCell {α : Type} {m : List (List α)} {H W : Nat} (h : Rect2 m H W)
    (y x : Int) (hy0 : 0 ≤ y) (hyH : y < (H : Int)) (hx0 : 0 ≤ x) (hxW : x < (W : Int)) :
    ∃ t, lookup2 m y x = some t := by
  obtain ⟨hl, hr⟩ := h
  unfold lookup2
  rw [if_neg (by omega)]
  have hyl : y.toNat < m.length := by omega
  rw [List.get?_eq_get hyl]
  dsimp only
  have hw := hr _ (List.get_mem m y.toNat hyl)
  have hxl : x.toNat < (m.get ⟨y.toNat, hyl⟩).length := by omega
  rw [List.get?_eq_get hxl]
  exact ⟨_, rfl⟩

theorem gridPath_trans {map : List (List Tile)} {a b : Coordinate}
    (h1 : GridPath map a b) :
    ∀ {c : Coordinate}, GridPath map b c → GridPath map a c := by
  induction h1 with
  | refl d hd => intro c h2; exact h2
  | step p q r hadj hp hrest ih => intro c h2; exact GridPath.step p q c hadj hp (ih h2)

theorem gridPath_right (map : List (List Tile)) (y : Int) :
    ∀ (n : Nat) (x1 : Int), (∀ z, x1 ≤ z → z ≤ x1 + (n : Int) → nonWallAt map z y) →
      GridPath map ⟨x1, y⟩ ⟨x1 + (n : Int), y⟩ := by
  intro n
  induction n with
  | zero =>
    intro x1 h
    have h0 : x1 + ((0 : Nat) : Int) = x1 := by simp
    rw [h0]
    exact GridPath.refl ⟨x1, y⟩ (h x1 le_rfl (by simp))
  | succ m ih =>
    intro x1 h
    have hstep := ih (x1 + 1) (fun z h1 h2 => h z (by omega) (by omega))
    have heq : x1 + 1 + (m : Int) = x1 + ((m + 1 : Nat) : Int) := by push_cast; ring
    rw [heq] at hstep
    have hadj : |x1 - (x1 + 1)| + |y - y| = (1 : Int) := by
      rw [show x1 - (x1 + 1) = -1 by ring, sub_self]
      norm_num
    exact GridPath.step ⟨x1, y⟩ ⟨x1 + 1, y⟩ ⟨x1 + ((m + 1 : Nat) : Int), y⟩ hadj
      (h x1 le_rfl (by omega)) hstep

theorem gridPath_left (map : List (List Tile)) (y : Int) :
    ∀ (n : Nat) (x1 : Int), (∀ z, x1 - (n : Int) ≤ z → z ≤ x1 → nonWallAt map z y) →
      GridPath map ⟨x1, y⟩ ⟨x1 - (n : Int), y⟩ := by
  intro n
  induction n with
  | zero =>
    intro x1 h
    have h0 : x1 - ((0 : Nat) : Int) = x1 := by simp
    rw [h0]
    exact GridPath.refl ⟨x1, y⟩ (h x1 (by simp) le_rfl)
  | succ m ih =>
    intro x1 h
    have hstep := ih (x1 - 1) (fun z h1 h2 => h z (by omega) (by omega))
    have heq : x1 - 1 - (m : Int) = x1 - ((m + 1 : Nat) : Int) := by push_cast; ring
    rw [heq] at hstep
    have hadj : |x1 - (x1 - 1)| + |y - y| = (1 : Int) := by
      rw [show x1 - (x1 - 1) = 1 by ring, sub_self]
      norm_num
    exact GridPath.step ⟨x1, y⟩ ⟨x1 - 1, y⟩ ⟨x1 - ((m + 1 : Nat) : Int), y⟩ hadj
      (h x1 (by omega) le_rfl) hstep

theorem gridPath_down (map : List (List Tile)) (x : Int) :
    ∀ (n : Nat) (y1 : Int), (∀ z, y1 ≤ z → z ≤ y1 + (n : Int) → nonWallAt map x z) →
      GridPath map ⟨x, y1⟩ ⟨x, y1 + (n : Int)⟩ := by
  intro n
  induction n with
  | zero =>
    intro y1 h
    have h0 : y1 + ((0 : Nat) : Int) = y1 := by simp
    rw [h0]
    exact GridPath.refl ⟨x, y1⟩ (h y1 le_rfl (by simp))
  | succ m ih =>
    intro y1 h
    have hstep := ih (y1 + 1) (fun z h1 h2 => h z (by omega) (by omega))
    have heq : y1 + 1 + (m : Int) = y1 + ((m + 1 : Nat) : Int) := by push_cast; ring
    rw [heq] at hstep
    have hadj : |x - x| + |y1 - (y1 + 1)| = (1 : Int) := by
      rw [show y1 - (y1 + 1) = -1 by ring, sub_self]
      norm_num
    exact GridPath.step ⟨x, y1⟩ ⟨x, y1 + 1⟩ ⟨x, y1 + ((m + 1 : Nat) : Int)⟩ hadj
      (h y1 le_rfl (by omega)) hstep

theorem gridPath_up (map : List (List Tile)) (x : Int) :
    ∀ (n : Nat) (y1 : Int), (∀ z, y1 - (n : Int) ≤ z → z ≤ y1 → nonWallAt map x z) →
      GridPath map ⟨x, y1⟩ ⟨x, y1 - (n : Int)⟩ := by
  intro n
  induction n with
  | zero =>
    intro y1 h
    have h0 : y1 - ((0 : Nat) : Int) = y1 := by simp
    rw [h0]
    exact GridPath.refl ⟨x, y1⟩ (h y1 (by simp) le_rfl)
  | succ m ih =>
    intro y1 h
    have hstep := ih (y1 - 1) (fun z h1 h2 => h z (by omega) (by omega))
    have heq : y1 - 1 - (m : Int) = y1 - ((m + 1 : Nat) : Int) := by push_cast; ring
    rw [heq] at hstep
    have hadj : |x - x| + |y1 - (y1 - 1)| = (1 : Int) := by
      rw [show y1 - (y1 - 1) = 1 by ring, sub_self]
      norm_num
    exact GridPath.step ⟨x, y1⟩ ⟨x, y1 - 1⟩ ⟨x, y1 - ((m + 1 : Nat) : Int)⟩ hadj
      (h y1 (by omega) le_rfl) hstep

theorem gridPath_horizontal (map : List (List Tile)) (y x1 x2 : Int)
    (h : ∀ z, min x1 x2 ≤ z → z ≤ max x1 x2 → nonWallAt map z y) :
    GridPath map ⟨x1, y⟩ ⟨x2, y⟩ := by
  rcases le_total x1 x2 with hle | hle
  · rw [min_eq_left hle, max_eq_right hle] at h
    have hx : x2 = x1 + ((x2 - x1).toNat : Int) := by omega
    rw [hx]
    exact gridPath_right map y _ x1 (fun z h1 h2 => h z h1 (by omega))
  · rw [min_eq_right hle, max_eq_left hle] at h
    have hx : x2 = x1 - ((x1 - x2).toNat : Int) := by omega
    rw [hx]
    exact gridPath_left map y _ x1 (fun z h1 h2 => h z (by omega) h2)

theorem gridPath_vertical (map : List (List Tile)) (x y1 y2 : Int)
    (h : ∀ z, min y1 y2 ≤ z → z ≤ max y1 y2 → nonWallAt map x z) :
    GridPath map ⟨x, y1⟩ ⟨x, y2⟩ := by
  rcases le_total y1 y2 with hle | hle
  · rw [min_eq_left hle, max_eq_right hle] at h
    have hy : y2 = y1 + ((y2 - y1).toNat : Int) := by omega
    rw [hy]
    exact gridPath_down map x _ y1 (fun z h1 h2 => h z h1 (by omega))
  · rw [min_eq_right hle, max_eq_left hle] at h
    have hy : y2 = y1 - ((y1 - y2).toNat : Int) := by omega
    rw [hy]
    exact gridPath_up map x _ y1 (fun z h1 h2 => h z (by omega) h2)

theorem center_bounds (r : Room) (h : RoomOK r) :
    3 ≤ roomCenterX r ∧ roomCenterX r ≤ 36 ∧ 3 ≤ roomCenterY r ∧ roomCenterY r ≤ 21 := by
  unfold RoomOK at h
  unfold roomCenterX roomCenterY
  rw [Int.fdiv_eq_ediv r.width (by omega), Int.fdiv_eq_ediv r.height (by omega)]
  omega

/-- C3: every successfully generated floor has a 4-connected path over
non-wall tiles from `playerStart` to the stairs cell — along the
carved first-to-last-room corridor (on a single-room floor the start
coincides with the stairs cell). -/
theorem generated_floor_connected (rng : Rng) (k0 : Nat) (floor : Nat)
    (ch : CharacterType) (gen : GenResult)
    (h : generateMap rng k0 floor ch = some gen) :
    ∃ s : Coordinate, tileTypeAt gen.map s.y s.x = some TileType.stairs ∧
      GridPath gen.map gen.playerStart s := by
  unfold generateMap at h
  dsimp only at h
  split at h
  · rename_i firstRoom lastRoom hf hl
    simp only [Option.some.injEq] at h
    subst h
    dsimp only
    have hOKS : ∀ r ∈ stableSortBy roomSortKey
        (genRoomsLoop rng (randomInt rng k0 5 8).toNat 100 (k0 + 1) []).1, RoomOK r :=
      fun r hr => genRoomsLoop_roomOK rng _ 100 (k0 + 1) [] (by simp) r
        ((mem_stableSortBy roomSortKey _ r).mp hr)
    have hrectM1 : Rect2 (List.foldl carveRoom initialWalls
        (genRoomsLoop rng (randomInt rng k0 5 8).toNat 100 (k0 + 1) []).1) 24 40 :=
      foldl_preserve _ (fun m2 => Rect2 m2 24 40) (fun m2 r hh => Rect2_carveRoom r hh) _ _
        Rect2_initialWalls
    revert hf hl hOKS hrectM1
    generalize (genRoomsLoop rng (randomInt rng k0 5 8).toNat 100 (k0 + 1) []).1 = RAW
    generalize stableSortBy roomSortKey RAW = RS
    intro hf hl hOKS hrectM1
    have hrect1 : Rect2 (carveChain (List.foldl carveRoom initialWalls RAW) RS) 24 40 :=
      Rect2_carveChain RS _ hrectM1
    revert hrect1
    generalize carveChain (List.foldl carveRoom initialWalls RAW) RS = M1
    intro hrect1
    obtain ⟨hf3, hf36, hf3y, hf21⟩ := center_bounds firstRoom (hOKS _ (mem_of_headq hf))
    obtain ⟨hl3, hl36, hl3y, hl21⟩ := center_bounds lastRoom (hOKS _ (mem_of_getLastq hl))
    refine ⟨⟨roomCenterX lastRoom, roomCenterY lastRoom⟩, ?_, ?_⟩
    · dsimp only
      obtain ⟨b2, hb2⟩ : ∃ b, lookup2 (if RS.length ≥ 2 then
            carveCorridor M1 (roomCenterX firstRoom) (roomCenterY firstRoom)
              (roomCenterX lastRoom) (roomCenterY lastRoom)
          else M1) (roomCenterY lastRoom) (roomCenterX lastRoom) = some b := by
        by_cases hlen : RS.length ≥ 2
        · rw [if_pos hlen]
          exact Rect2_hasCell (Rect2_carveCorridor _ _ _ _ hrect1) _ _ (by omega) (by omega)
            (by omega) (by omega)
        · rw [if_neg hlen]
          exact Rect2_hasCell hrect1 _ _ (by omega) (by omega) (by omega) (by omega)
      unfold tileTypeAt
      rw [lookup2_set2_self _ hb2]
      rfl
    · dsimp only
      by_cases hlen : RS.length ≥ 2
      · rw [if_pos hlen]
        have hrow : ∀ z, min (roomCenterX firstRoom) (roomCenterX lastRoom) ≤ z →
            z ≤ max (roomCenterX firstRoom) (roomCenterX lastRoom) →
            nonWallAt (set2 (carveCorridor M1 (roomCenterX firstRoom)
                (roomCenterY firstRoom) (roomCenterX lastRoom) (roomCenterY lastRoom))
              (roomCenterY lastRoom) (roomCenterX lastRoom)
              ⟨TileType.stairs, roomCenterX lastRoom, roomCenterY lastRoom⟩) z
              (roomCenterY firstRoom) := by
          intro z hz1 hz2
          refine set2_nonWall_preserve _ _ _ _ (by simp) _ _ ?_
          unfold carveCorridor
          refine carveV_nonWall_preserve _ _ _ _ _ _ ?_
          refine carveH_nonWall _ _ _ _ _ ⟨hz1, hz2⟩ ?_
          exact Rect2_hasCell hrect1 _ _ (by omega) (by omega) (by omega) (by omega)
        have hcol : ∀ z, min (roomCenterY firstRoom) (roomCenterY lastRoom) ≤ z →
            z ≤ max (roomCenterY firstRoom) (roomCenterY lastRoom) →
            nonWallAt (set2 (carveCorridor M1 (roomCenterX firstRoom)
                (roomCenterY firstRoom) (roomCenterX lastRoom) (roomCenterY lastRoom))
              (roomCenterY lastRoom) (roomCenterX lastRoom)
              ⟨TileType.stairs, roomCenterX lastRoom, roomCenterY lastRoom⟩)
              (roomCenterX lastRoom) z := by
          intro z hz1 hz2
          refine set2_nonWall_preserve _ _ _ _ (by simp) _ _ ?_
          unfold carveCorridor
          refine carveV_nonWall _ _ _ _ _ ⟨hz1, hz2⟩ ?_
          exact Rect2_hasCell (Rect2_carveH _ _ _ hrect1) _ _ (by omega) (by omega)
            (by omega) (by omega)
        exact gridPath_trans
          (gridPath_horizontal _ (roomCenterY firstRoom) (roomCenterX firstRoom)
            (roomCenterX lastRoom) hrow)
          (gridPath_vertical _ (roomCenterX lastRoom) (roomCenterY firstRoom)
            (roomCenterY lastRoom) hcol)
      · rw [if_neg hlen]
        have hfl : firstRoom = lastRoom := head_eq_getLast_of_short hlen hf hl
        rw [hfl]
        obtain ⟨b, hb⟩ : ∃ b, lookup2 M1 (roomCenterY lastRoom) (roomCenterX lastRoom) =
            some b :=
          Rect2_hasCell hrect1 _ _ (by omega) (by omega) (by omega) (by omega)
        exact GridPath.refl _ ⟨_, lookup2_set2_self _ hb, by simp⟩
  all_goals exact absurd h (by simp)

/-- C3 witness: the all-zeros stream generates a (single-room) floor
and the theorem yields a start-to-stairs path on it. -/
theorem generated_floor_connected_witness :
    (generateMap rngZero 0 1 CharacterType.dwarf).isSome = true ∧
    ∃ s : Coordinate,
      tileTypeAt ((generateMap rngZero 0 1 CharacterType.dwarf).getD
        ⟨[], ⟨0, 0⟩, [], []⟩).map s.y s.x = some TileType.stairs ∧
      GridPath ((generateMap rngZero 0 1 CharacterType.dwarf).getD
        ⟨[], ⟨0, 0⟩, [], []⟩).map
        ((generateMap rngZero 0 1 CharacterType.dwarf).getD
          ⟨[], ⟨0, 0⟩, [], []⟩).playerStart s :=
  ⟨by decide, generated_floor_connected rngZero 0 1 CharacterType.dwarf _ (by decide)⟩

end DungeonCrawler
